import Mathlib

/-!
Remote reconciliation worker (`internal/tfhandler/qworker.go`).

A shallow embedding of the queue worker of the terraform-operator remote
controller, followed by theorems about one iteration of the worker loop, the
resource reconciler `createOrUpdateResource` and the kind resolver
`getAPIResourceForGVK` / `getDynamicClientOnKind`.

Conventions of the embedding:

* Go `string` is `String`; `[]byte` is a list of byte values (`Nat`, each below 256).
* `time.Duration` is a number of nanoseconds.
* A Go function returning `(T, error)` returns `Except String T`.
* Calls that leave the process (poll API, discovery, cluster create/update) are
  recorded in explicit traces, and the collaborators that answer them are
  fields of the receiver `informer`.
-/

set_option autoImplicit false
set_option maxRecDepth 20000

deriving instance DecidableEq for Except

namespace tfhandler

/-! ## Library vocabulary used by the source -/

namespace strings

/-- Go `strings.Contains(s, substr)`: `substr` occurs in `s` as a contiguous run. -/
def Contains (s substr : String) : Bool :=
  decide (substr.data <:+: s.data)

end strings

namespace time

/-- Go `time.Duration`, a count of nanoseconds. -/
abbrev Duration := Nat

/-- Go `time.Second`. -/
def Second : Duration := 1000000000

end time

/-- The byte sequence of one code point in UTF-8. -/
def utf8Bytes (c : Char) : List Nat :=
  let v := c.toNat
  if v ≤ 0x7f then [v]
  else if v ≤ 0x7ff then [0xc0 + v / 64, 0x80 + v % 64]
  else if v ≤ 0xffff then [0xe0 + v / 4096, 0x80 + (v / 64) % 64, 0x80 + v % 64]
  else [0xf0 + v / 262144, 0x80 + (v / 4096) % 64, 0x80 + (v / 64) % 64, 0x80 + v % 64]

/-- Go conversion `[]byte(s)`: the bytes of the string. -/
def bytes (s : String) : List Nat :=
  s.data.flatMap utf8Bytes

/-- A dynamically typed Go value (`interface{}`) as produced by decoding JSON. -/
inductive GoValue where
  | nil
  | bool (b : Bool)
  | float64 (bits : Nat)
  | string (s : String)
  | slice (xs : List GoValue)
  | map (kvs : List (String × GoValue))

namespace schema

/-- Type `schema.GroupVersion`. -/
structure GroupVersion where
  Group : String
  Version : String
deriving DecidableEq, Repr

/-- Type `schema.GroupVersionKind`. -/
structure GroupVersionKind where
  Group : String
  Version : String
  Kind : String
deriving DecidableEq, Repr

/-- Type `schema.GroupVersionResource`. -/
structure GroupVersionResource where
  Group : String
  Version : String
  Resource : String
deriving DecidableEq, Repr

/-- `schema.ParseGroupVersion`: the empty string and "/" give the empty
group/version, a string without "/" is a bare version of the core group, a
string with one "/" splits into group and version, anything else is an error. -/
def ParseGroupVersion (gv : String) : Except String GroupVersion :=
  if gv.length = 0 ∨ gv = "/" then .ok { Group := "", Version := "" }
  else
    match gv.data.count '/' with
    | 0 => .ok { Group := "", Version := gv }
    | 1 =>
      let i := gv.data.indexOf '/'
      .ok { Group := String.mk (gv.data.take i), Version := String.mk (gv.data.drop (i + 1)) }
    | _ => .error ("unexpected GroupVersion string: " ++ gv)

/-- `schema.FromAPIVersionAndKind`. -/
def FromAPIVersionAndKind (apiVersion kind : String) : GroupVersionKind :=
  match ParseGroupVersion apiVersion with
  | .ok gv => { Group := gv.Group, Version := gv.Version, Kind := kind }
  | .error _ => { Group := "", Version := "", Kind := kind }

/-- `GroupVersionKind.GroupVersion()`. -/
def GroupVersionKind.GroupVersion (gvk : GroupVersionKind) : GroupVersion :=
  { Group := gvk.Group, Version := gvk.Version }

/-- `GroupVersion.String()`: "group/version", or the bare version for the core group. -/
def GroupVersion.string (gv : GroupVersion) : String :=
  if gv.Group.length > 0 then gv.Group ++ "/" ++ gv.Version else gv.Version

end schema

namespace metav1

/-- Type `metav1.APIResource`, one entry of a discovery resource list. -/
structure APIResource where
  Name : String
  SingularName : String
  Namespaced : Bool
  Group : String
  Version : String
  Kind : String
  Verbs : List String
  ShortNames : List String
  Categories : List String
  StorageVersionHash : String
deriving DecidableEq, Repr

/-- The Go zero value `metav1.APIResource{}`. -/
def APIResource.zero : APIResource :=
  { Name := "", SingularName := "", Namespaced := false, Group := "", Version := "",
    Kind := "", Verbs := [], ShortNames := [], Categories := [], StorageVersionHash := "" }

/-- Type `metav1.OwnerReference`. -/
structure OwnerReference where
  APIVersion : String
  Kind : String
  Name : String
  UID : String
deriving DecidableEq, Repr

end metav1

namespace unstructured

/-- A JSON value found where the accessors expect a string: a string, or any
other value, kept as its JSON text. -/
inductive Value where
  | string (s : String)
  | other (json : String)
deriving DecidableEq, Repr

/-- The field `metadata.labels` of a decoded document: absent, a JSON value
that is not an object (kept as its JSON text), or an object whose values may
or may not be strings. -/
inductive LabelsField where
  | absent
  | notMap (json : String)
  | map (kvs : List (String × Value))
deriving DecidableEq, Repr

/-- The loop of `NestedStringMap` over the entries of a map: the map of
strings when every value is a string, no result as soon as one value is not. -/
def NestedStringMap.strings : List (String × Value) → Option (List (String × String))
  | [] => some []
  | (k, .string s) :: rest =>
    match NestedStringMap.strings rest with
    | some m => some ((k, s) :: m)
    | none => none
  | (_, .other _) :: _ => none

/-- The view of `unstructured.Unstructured` that the program reaches through
its accessors: the type meta, the metadata fields it reads or writes, and every
other field (`spec`, `status`, remaining metadata) kept as opaque JSON text.
The labels are kept as decoded, before any check of their values. Each setter
below writes the one field it names and no other. -/
structure Unstructured where
  apiVersion : String
  kind : String
  name : String
  nspace : String
  labels : LabelsField
  resourceVersion : String
  uid : String
  ownerReferences : List metav1.OwnerReference
  fields : List (String × String)
deriving DecidableEq, Repr

namespace Unstructured

/-- Accessor `GetLabels()`, which is `NestedStringMap` on `metadata.labels` with
its error dropped: the labels when the field is a map whose values are all
strings, and the nil map (no entry) when the field is absent, is not a map, or
holds a value that is not a string. -/
def GetLabels (u : Unstructured) : List (String × String) :=
  match u.labels with
  | .map kvs =>
    match NestedStringMap.strings kvs with
    | some m => m
    | none => []
  | .notMap _ => []
  | .absent => []

/-- Accessor `GetName()`. -/
def GetName (u : Unstructured) : String := u.name

/-- Accessor `SetName(name)`. -/
def SetName (u : Unstructured) (name : String) : Unstructured := { u with name := name }

/-- Accessor `SetNamespace(namespace)`. -/
def SetNamespace (u : Unstructured) (ns : String) : Unstructured := { u with nspace := ns }

/-- Accessor `SetResourceVersion(version)`. -/
def SetResourceVersion (u : Unstructured) (version : String) : Unstructured :=
  { u with resourceVersion := version }

/-- Accessor `SetUID(uid)`. -/
def SetUID (u : Unstructured) (uid : String) : Unstructured := { u with uid := uid }

/-- Accessor `SetOwnerReferences(references)`. -/
def SetOwnerReferences (u : Unstructured) (references : List metav1.OwnerReference) :
    Unstructured :=
  { u with ownerReferences := references }

/-- `GetObjectKind().GroupVersionKind()`: parses the object's `apiVersion`; a
string that does not parse gives the empty GroupVersionKind. -/
def GroupVersionKind (u : Unstructured) : schema.GroupVersionKind :=
  match schema.ParseGroupVersion u.apiVersion with
  | .ok gv => { Group := gv.Group, Version := gv.Version, Kind := u.kind }
  | .error _ => { Group := "", Version := "", Kind := "" }

end Unstructured

end unstructured

open unstructured (Unstructured)

namespace kerrors

/-- An error returned by a cluster API call, as far as the program tells them apart. -/
inductive StatusError where
  | AlreadyExists
  | Other (msg : String)
deriving DecidableEq, Repr

/-- `kerrors.IsAlreadyExists`. -/
def IsAlreadyExists : StatusError → Bool
  | .AlreadyExists => true
  | .Other _ => false

end kerrors

namespace dynamic

/-- A dynamic resource client: the resource endpoint it addresses and the namespace
it is bound to (empty when not bound to a namespace). -/
structure ResourceClient where
  resource : schema.GroupVersionResource
  nspace : String
deriving DecidableEq, Repr

/-- `intf.Resource(gvr)`: the client of a resource, not bound to a namespace. -/
def Resource (gvr : schema.GroupVersionResource) : ResourceClient :=
  { resource := gvr, nspace := "" }

/-- `client.Namespace(ns)`: the same client bound to namespace `ns`. -/
def ResourceClient.Namespace (c : ResourceClient) (ns : String) : ResourceClient :=
  { c with nspace := ns }

end dynamic

/-- The `rest.Config` as the program uses it: what building a discovery client
and a dynamic client from it returns, and what the discovery endpoint it points
at answers for a group/version string. -/
structure Config where
  NewDiscoveryClientForConfig : Option String
  ServerResourcesForGroupVersion : String → Except String (List metav1.APIResource)
  NewForConfig : Option String

/-- One request sent to the target cluster, with the error it returned. -/
inductive ClusterCall where
  | ServerResourcesForGroupVersion (groupVersion : String)
  | Create (client : dynamic.ResourceClient) (obj : Unstructured)
      (err : Option kerrors.StatusError)
  | Update (client : dynamic.ResourceClient) (obj : Unstructured)
      (err : Option kerrors.StatusError)
deriving DecidableEq, Repr

/-! ## Kind resolver -/

/-- The scan of `getAPIResourceForGVK` (source lines 175-183): `res` is kept
until the first entry whose kind matches and whose name has no "/"; that entry,
with group and version set from `gvk`, ends the loop. -/
def getAPIResourceForGVK.scan (gvk : schema.GroupVersionKind) :
    List metav1.APIResource → metav1.APIResource → metav1.APIResource
  | [], res => res
  | resource :: rest, res =>
    if resource.Kind = gvk.Kind ∧ ¬ strings.Contains resource.Name "/" then
      { resource with Group := gvk.Group, Version := gvk.Version }
    else getAPIResourceForGVK.scan gvk rest res

/-- Function `getAPIResourceForGVK`, with the discovery requests it sends. -/
def getAPIResourceForGVK (gvk : schema.GroupVersionKind) (config : Config) :
    List ClusterCall × Except String metav1.APIResource :=
  let res := metav1.APIResource.zero
  match config.NewDiscoveryClientForConfig with
  | some err => ([], .error err)
  | none =>
    let gv := gvk.GroupVersion.string
    match config.ServerResourcesForGroupVersion gv with
    | .error err => ([.ServerResourcesForGroupVersion gv], .error err)
    | .ok resList =>
      ([.ServerResourcesForGroupVersion gv], .ok (getAPIResourceForGVK.scan gvk resList res))

/-- Function `getDynamicClientOnKind`, with the discovery requests it sends. -/
def getDynamicClientOnKind (apiversion kind : String) (config : Config) :
    List ClusterCall × Except String (dynamic.ResourceClient × Bool) :=
  let gvk := schema.FromAPIVersionAndKind apiversion kind
  match getAPIResourceForGVK gvk config with
  | (calls, .error err) =>
    (calls, .error ("unable to get apiresource from unstructured: " ++ err))
  | (calls, .ok apiRes) =>
    let gvr : schema.GroupVersionResource :=
      { Group := apiRes.Group, Version := apiRes.Version, Resource := apiRes.Name }
    match config.NewForConfig with
    | some err => (calls, .error err)
    | none => (calls, .ok (dynamic.Resource gvr, apiRes.Namespaced))

/-! ## Data model of the worker -/

namespace tfv1alpha2

/-- The part of `tfv1alpha2.TerraformSpec` the worker reads. -/
structure TerraformSpec where
  OutputsSecret : String
deriving DecidableEq, Repr

/-- The part of `tfv1alpha2.Terraform` (the JobRef) the worker reads. -/
structure Terraform where
  Name : String
  Namespace : String
  UID : String
  Spec : TerraformSpec
deriving DecidableEq, Repr

end tfv1alpha2

open tfv1alpha2 (Terraform)

/-- Modelled from the spec: the status part of a poll response; the type is
declared by the poll client, outside the given sources. -/
structure StatusInfo where
  StatusCode : Int
  Message : String

/-- Modelled from the spec: the payload of a poll response, a status and
dynamically typed data; the type is declared outside the given sources. -/
structure Response where
  StatusInfo : StatusInfo
  Data : GoValue

/-- Modelled from the spec: what `Poll().Read` returns next to its error; the
type is declared outside the given sources. -/
structure Result where
  Data : Response
  IsSuccess : Bool
  ErrMsg : String

/-- Modelled from the spec: the receiver type `informer`, declared outside the
given sources, together with the collaborators its methods reach. `clientset`
answers `Resource(name).Poll().Read(ctx, &tf)` (and leaves `tf` as it is),
`config` is the cluster configuration, `Unmarshal` is `json.Unmarshal` into an
`Unstructured`, and `Create` / `Update` are the answers of the cluster to the
calls of the dynamic client, over a cluster state of type `σ`. The queue, the
mutable field of the receiver, is passed to the worker separately. -/
structure informer (σ : Type) where
  clientset : String → Terraform → Except String Result
  config : Config
  Unmarshal : List Nat → Except String Unstructured
  Create : dynamic.ResourceClient → Unstructured → σ → Option kerrors.StatusError × σ
  Update : dynamic.ResourceClient → Unstructured → σ → Option kerrors.StatusError × σ

/-- What one worker iteration does that is visible outside it, in order. -/
inductive Event where
  | Sleep (t : time.Duration)
  | Poll (name : String) (tf : Terraform)
  | requeueAfter (tf : Terraform) (t : time.Duration)
  | createOrUpdateResource (b : List Nat) (ns : String) (calls : List ClusterCall)
deriving DecidableEq, Repr

/-- Modelled from the spec: the work queue, whose type is declared outside the
given sources. `Len` counts the pending items. -/
def queue.Len (q : List Terraform) : Nat := q.length

/-- Modelled from the spec: `PopFront` removes and returns the earliest-pushed
item; it has no result on an empty queue. -/
def queue.PopFront : List Terraform → Option (Terraform × List Terraform)
  | [] => none
  | tf :: rest => some (tf, rest)

/-- Modelled from the spec: `PushBack` appends an item. -/
def queue.PushBack (q : List Terraform) (tf : Terraform) : List Terraform := q ++ [tf]

/-! ## Resource reconciler -/

/-- Method `createOrUpdateResource`: returns the requests sent to the cluster
and the cluster state afterwards. -/
def createOrUpdateResource {σ : Type} (i : informer σ) (b : List Nat) (ns : String)
    (cluster : σ) : List ClusterCall × σ :=
  match i.Unmarshal b with
  | .error _ => ([], cluster)
  | .ok obj =>
    let labels := obj.GetLabels
    let key := "tfo.galleybytes.com/original-name"
    let obj := match labels.lookup key with
      | some name => obj.SetName name
      | none => obj
    let gvk := obj.GroupVersionKind
    match getDynamicClientOnKind gvk.Version gvk.Kind i.config with
    | (calls, .error _) => (calls, cluster)
    | (calls, .ok (namespaceableResourceClient, isNamespaced)) =>
      let dynamicClient :=
        if isNamespaced then namespaceableResourceClient.Namespace ns
        else namespaceableResourceClient
      let obj := obj.SetNamespace ns
      let obj := obj.SetResourceVersion ""
      let obj := obj.SetUID ""
      let obj := obj.SetOwnerReferences []
      match i.Create dynamicClient obj cluster with
      | (some err, cluster) =>
        if kerrors.IsAlreadyExists err then
          match i.Update dynamicClient obj cluster with
          | (uerr, cluster) =>
            (calls ++ [.Create dynamicClient obj (some err), .Update dynamicClient obj uerr],
              cluster)
        else (calls ++ [.Create dynamicClient obj (some err)], cluster)
      | (none, cluster) => (calls ++ [.Create dynamicClient obj none], cluster)

/-! ## Worker loop -/

/-- Function `shouldPoll`. -/
def shouldPoll (tf : Terraform) : Bool :=
  tf.Spec.OutputsSecret != ""

/-- The text built by
`fmt.Sprintf("terraforms.tf.isaaguilar.com \"%s\" not found", name)`. -/
def notFoundMessage (name : String) : String :=
  "terraforms.tf.isaaguilar.com \"" ++ name ++ "\" not found"

/-- Method `requeueAfter` (source lines 191-196): starts a task that sleeps for
`t` and then pushes `tf` back onto the queue; the caller does not wait for it.
Starting the task is the event recorded. -/
def requeueAfter (tf : Terraform) (t : time.Duration) : List Event :=
  [.requeueAfter tf t]

/-- What the task started by `requeueAfter` does to the queue once its sleep is
over (source line 194). -/
def requeueAfter.push (q : List Terraform) (tf : Terraform) : List Terraform :=
  queue.PushBack q tf

/-- The outcome of one pass through the body of the worker's loop: the events
of the pass, the queue and the cluster state after it. -/
structure Step (σ : Type) where
  events : List Event
  queue : List Terraform
  cluster : σ

/-- The first loop over the payload (source lines 74-81): `true` when it runs
to the end, `false` when it meets an item that is not a string. -/
def worker.allStrings : List GoValue → Bool
  | [] => true
  | .string _ :: rest => worker.allStrings rest
  | _ :: _ => false

/-- The second loop over the payload (source lines 82-84): one
`createOrUpdateResource` call per item, in order. The unchecked type assertion
`item.(string)` has no result on an item that is not a string. -/
def worker.applyAll {σ : Type} (i : informer σ) (ns : String) :
    List GoValue → σ → Option (List Event × σ)
  | [], cluster => some ([], cluster)
  | .string s :: rest, cluster =>
    match createOrUpdateResource i (bytes s) ns cluster with
    | (calls, cluster) =>
      match worker.applyAll i ns rest cluster with
      | some (events, cluster) =>
        some (.createOrUpdateResource (bytes s) ns calls :: events, cluster)
      | none => none
  | _ :: _, _ => none

/-- One pass through the body of the loop of `worker` (source lines 31-85).
The result is `none` where the Go code would stop with a run-time fault. -/
def worker.iteration {σ : Type} (i : informer σ) (q : List Terraform) (cluster : σ) :
    Option (Step σ) :=
  if queue.Len q = 0 then
    some { events := [.Sleep (3 * time.Second)], queue := q, cluster := cluster }
  else
    match queue.PopFront q with
    | none => none
    | some (tf, q) =>
      if ¬ shouldPoll tf then
        some { events := [], queue := q, cluster := cluster }
      else
        let name := tf.UID
        let ns := tf.Namespace
        match i.clientset name tf with
        | .error _ =>
          some { events := .Poll name tf :: requeueAfter tf (30 * time.Second),
                 queue := q, cluster := cluster }
        | .ok result =>
          if strings.Contains result.Data.StatusInfo.Message "workflow has not completed" then
            some { events := .Poll name tf :: requeueAfter tf (30 * time.Second),
                   queue := q, cluster := cluster }
          else if ¬ result.IsSuccess then
            if strings.Contains result.ErrMsg (notFoundMessage name) then
              some { events := [.Poll name tf], queue := q, cluster := cluster }
            else
              some { events := .Poll name tf :: requeueAfter tf (30 * time.Second),
                     queue := q, cluster := cluster }
          else
            match result.Data.Data with
            | .slice list =>
              if worker.allStrings list then
                match worker.applyAll i ns list cluster with
                | some (events, cluster) =>
                  some { events := .Poll name tf :: events, queue := q, cluster := cluster }
                | none => none
              else
                some { events := .Poll name tf :: requeueAfter tf (30 * time.Second),
                       queue := q, cluster := cluster }
            | _ =>
              some { events := .Poll name tf :: requeueAfter tf (30 * time.Second),
                     queue := q, cluster := cluster }

/-- The requeues scheduled by a pass: the job and delay of each. -/
def requeues : List Event → List (Terraform × time.Duration)
  | [] => []
  | .requeueAfter tf t :: rest => (tf, t) :: requeues rest
  | _ :: rest => requeues rest

/-- The `createOrUpdateResource` calls of a pass: bytes and namespace of each. -/
def reconciles : List Event → List (List Nat × String)
  | [] => []
  | .createOrUpdateResource b ns _ :: rest => (b, ns) :: reconciles rest
  | _ :: rest => reconciles rest

/-- The poll calls of a pass: identifier and job of each. -/
def polls : List Event → List (String × Terraform)
  | [] => []
  | .Poll name tf :: rest => (name, tf) :: polls rest
  | _ :: rest => polls rest

/-! ## The cluster used to state idempotence -/

/-- The key of a stored object: resource endpoint, namespace of the request, name. -/
abbrev Key := schema.GroupVersionResource × String × String

/-- A cluster as a finite map from keys to objects, kept as an association list. -/
abbrev Store := List (Key × Unstructured)

/-- The key a request of `client` for `obj` addresses. -/
def Store.key (client : dynamic.ResourceClient) (obj : Unstructured) : Key :=
  (client.resource, client.nspace, obj.name)

/-- The object a store holds under a key, if any. -/
def Store.lookup : Store → Key → Option Unstructured
  | [], _ => none
  | (k', o) :: rest, k => if k' = k then some o else Store.lookup rest k

/-- Overwrites what a store holds under a key. -/
def Store.overwrite : Store → Key → Unstructured → Store
  | [], _, _ => []
  | (k', o) :: rest, k, obj =>
    if k' = k then (k, obj) :: Store.overwrite rest k obj
    else (k', o) :: Store.overwrite rest k obj

/-- Modelled from the spec: create on the map cluster of the idempotence
property; it fails with already-exists when the key is present (and only
then), otherwise stores the object under the key. -/
def Store.Create (client : dynamic.ResourceClient) (obj : Unstructured) (s : Store) :
    Option kerrors.StatusError × Store :=
  match Store.lookup s (Store.key client obj) with
  | some _ => (some .AlreadyExists, s)
  | none => (none, s ++ [(Store.key client obj, obj)])

/-- Modelled from the spec: update on the map cluster of the idempotence
property; it overwrites the object stored under the key, and fails when the key
is absent. -/
def Store.Update (client : dynamic.ResourceClient) (obj : Unstructured) (s : Store) :
    Option kerrors.StatusError × Store :=
  match Store.lookup s (Store.key client obj) with
  | some _ => (none, Store.overwrite s (Store.key client obj) obj)
  | none => (some (.Other "not found"), s)

/-- The number of objects a store holds under a key. -/
def Store.count : Store → Key → Nat
  | [], _ => 0
  | (k', _) :: rest, k => if k' = k then Store.count rest k + 1 else Store.count rest k

/-- An informer whose cluster is a `Store`. -/
def storeInformer (clientset : String → Terraform → Except String Result) (config : Config)
    (Unmarshal : List Nat → Except String Unstructured) : informer Store :=
  { clientset := clientset, config := config, Unmarshal := Unmarshal,
    Create := Store.Create, Update := Store.Update }

/-! ## Vocabulary of the statements -/

/-- An entry the resolver accepts for `gvk`: its kind is the requested kind and
its name has no "/". -/
def matchesKind (gvk : schema.GroupVersionKind) (r : metav1.APIResource) : Prop :=
  r.Kind = gvk.Kind ∧ ¬ strings.Contains r.Name "/"

instance (gvk : schema.GroupVersionKind) : DecidablePred (matchesKind gvk) :=
  fun r => by unfold matchesKind; exact inferInstance

/-- The object `createOrUpdateResource` sends for a decoded object `obj` and a
target namespace: renamed after its original-name label when `GetLabels` gives
one, moved to the namespace, with the cluster-assigned identity fields
emptied. -/
def sentObject (obj : Unstructured) (ns : String) : Unstructured :=
  { obj with
    name := (match obj.GetLabels.lookup "tfo.galleybytes.com/original-name" with
      | some name => name
      | none => obj.name)
    nspace := ns
    resourceVersion := ""
    uid := ""
    ownerReferences := [] }

/-- The client `createOrUpdateResource` sends through: bound to the target namespace
exactly when the kind is namespaced. -/
def sendingClient (client : dynamic.ResourceClient) (isNamespaced : Bool) (ns : String) :
    dynamic.ResourceClient :=
  if isNamespaced then client.Namespace ns else client

/-- The cluster state after `n` applications of `createOrUpdateResource` to the
same bytes and target namespace. -/
def applyTimes {σ : Type} (i : informer σ) (b : List Nat) (ns : String) : Nat → σ → σ
  | 0, cluster => cluster
  | n + 1, cluster => applyTimes i b ns n (createOrUpdateResource i b ns cluster).2

/-! ## Sample inputs -/

/-- A discovery entry with the given resource name, kind and scope. -/
def apiResource (name kind : String) (namespaced : Bool) : metav1.APIResource :=
  { metav1.APIResource.zero with Name := name, Kind := kind, Namespaced := namespaced }

/-- A sample resource list of the core group/version "v1". -/
def sampleCoreV1 : List metav1.APIResource :=
  [apiResource "pods/status" "Pod" true, apiResource "pods" "Pod" true,
   apiResource "configmaps" "ConfigMap" true, apiResource "events" "Event" true,
   apiResource "namespaces" "Namespace" false]

/-- A sample cluster configuration: both clients can be built, and discovery
knows the group/versions "v1", "apps/v1" and "events.k8s.io/v1". -/
def sampleConfig : Config :=
  { NewDiscoveryClientForConfig := none
    ServerResourcesForGroupVersion := fun gv =>
      if gv = "v1" then .ok sampleCoreV1
      else if gv = "apps/v1" then .ok [apiResource "deployments" "Deployment" true]
      else if gv = "events.k8s.io/v1" then .ok [apiResource "events" "Event" true]
      else .error "the server could not find the requested resource"
    NewForConfig := none }

/-- An object with the given type meta and name and nothing else set. -/
def sampleObject (apiVersion kind name : String) : Unstructured :=
  { apiVersion := apiVersion, kind := kind, name := name, nspace := "", labels := .absent,
    resourceVersion := "", uid := "", ownerReferences := [], fields := [] }

/-- The JSON text of a `Widget` of the core group, a kind discovery does not list. -/
def widgetJSON : String :=
  "\x7b\"apiVersion\":\"v1\",\"kind\":\"Widget\",\"metadata\":\x7b\"name\":\"w\"\x7d\x7d"

/-- The JSON text of an `Event` of the group "events.k8s.io". -/
def eventJSON : String :=
  "\x7b\"apiVersion\":\"events.k8s.io/v1\",\"kind\":\"Event\",\"metadata\":\x7b\"name\":\"e\"\x7d\x7d"

/-- The JSON text of a `Deployment` of the group "apps". -/
def deploymentJSON : String :=
  "\x7b\"apiVersion\":\"apps/v1\",\"kind\":\"Deployment\",\"metadata\":\x7b\"name\":\"d\"\x7d\x7d"

/-- The JSON text of a `ConfigMap` copied from a hub cluster: stored under a
hub name and in a hub namespace, labelled with its original name, carrying the
identity the hub cluster gave it, with one data entry. -/
def configMapJSON : String :=
  "\x7b\"apiVersion\":\"v1\",\"kind\":\"ConfigMap\"," ++
    "\"metadata\":\x7b\"name\":\"hub-7f3a\",\"namespace\":\"hub\"," ++
    "\"labels\":\x7b\"app\":\"db\"," ++
    "\"tfo.galleybytes.com/original-name\":\"settings\"\x7d," ++
    "\"resourceVersion\":\"4711\",\"uid\":\"0b1e\"," ++
    "\"ownerReferences\":[\x7b\"apiVersion\":\"tf.isaaguilar.com/v1alpha2\"," ++
    "\"kind\":\"Terraform\",\"name\":\"job1-tf\",\"uid\":\"job1\"\x7d]\x7d," ++
    "\"data\":\x7b\"mode\":\"fast\"\x7d\x7d"

/-- The decoded `ConfigMap`, field by field what `configMapJSON` holds. -/
def configMapObject : Unstructured :=
  { apiVersion := "v1", kind := "ConfigMap", name := "hub-7f3a", nspace := "hub",
    labels := .map [("app", .string "db"),
                    ("tfo.galleybytes.com/original-name", .string "settings")],
    resourceVersion := "4711", uid := "0b1e",
    ownerReferences := [{ APIVersion := "tf.isaaguilar.com/v1alpha2", Kind := "Terraform",
                          Name := "job1-tf", UID := "job1" }],
    fields := [("data", "\x7b\"mode\":\"fast\"\x7d")] }

/-- The JSON text of a `ConfigMap` named "x" that carries the original-name
label with the value "y" next to a label whose value is the number 1. -/
def mixedLabelsJSON : String :=
  "\x7b\"apiVersion\":\"v1\",\"kind\":\"ConfigMap\"," ++
    "\"metadata\":\x7b\"name\":\"x\"," ++
    "\"labels\":\x7b\"tfo.galleybytes.com/original-name\":\"y\"," ++
    "\"n\":1\x7d\x7d\x7d"

/-- The decoded `ConfigMap` with the mixed labels, field by field what
`mixedLabelsJSON` holds. -/
def mixedLabelsObject : Unstructured :=
  { apiVersion := "v1", kind := "ConfigMap", name := "x", nspace := "",
    labels := .map [("tfo.galleybytes.com/original-name", .string "y"), ("n", .other "1")],
    resourceVersion := "", uid := "", ownerReferences := [], fields := [] }

/-- The decoding of the sample documents, each to the object its text holds;
every other input is rejected. -/
def sampleUnmarshal (b : List Nat) : Except String Unstructured :=
  if b = bytes widgetJSON then .ok (sampleObject "v1" "Widget" "w")
  else if b = bytes eventJSON then .ok (sampleObject "events.k8s.io/v1" "Event" "e")
  else if b = bytes deploymentJSON then .ok (sampleObject "apps/v1" "Deployment" "d")
  else if b = bytes configMapJSON then .ok configMapObject
  else if b = bytes mixedLabelsJSON then .ok mixedLabelsObject
  else .error "invalid character"

/-- A job that asks for its outputs. -/
def sampleJob : Terraform :=
  { Name := "job1-tf", Namespace := "prod", UID := "job1", Spec := { OutputsSecret := "s1" } }

/-- A job without an outputs secret. -/
def silentJob : Terraform :=
  { Name := "job2-tf", Namespace := "prod", UID := "job2", Spec := { OutputsSecret := "" } }

/-- A poll response with the given status message, success flag, error text and data. -/
def sampleResult (message : String) (isSuccess : Bool) (errMsg : String) (data : GoValue) :
    Result :=
  { Data := { StatusInfo := { StatusCode := 200, Message := message }, Data := data },
    IsSuccess := isSuccess, ErrMsg := errMsg }

/-- An informer over a `Store` with the sample configuration and decoder, whose
poll client answers every call with `answer`. -/
def sampleInformer (answer : Except String Result) : informer Store :=
  storeInformer (fun _ _ => answer) sampleConfig sampleUnmarshal

/-! ## Properties of the kind resolver -/

theorem scan_no_match (gvk : schema.GroupVersionKind) (l : List metav1.APIResource)
    (res : metav1.APIResource) (h : ∀ x ∈ l, ¬ matchesKind gvk x) :
    getAPIResourceForGVK.scan gvk l res = res := by
  induction l with
  | nil => rfl
  | cons a t ih =>
    have ha : ¬ matchesKind gvk a := h a (List.mem_cons_self a t)
    have ht : ∀ x ∈ t, ¬ matchesKind gvk x := fun x hx => h x (List.mem_cons_of_mem a hx)
    unfold matchesKind at ha
    simp only [getAPIResourceForGVK.scan, if_neg ha]
    exact ih ht

theorem scan_first_match (gvk : schema.GroupVersionKind)
    (pre : List metav1.APIResource) (r : metav1.APIResource) (post : List metav1.APIResource)
    (res : metav1.APIResource) (hpre : ∀ x ∈ pre, ¬ matchesKind gvk x)
    (hr : matchesKind gvk r) :
    getAPIResourceForGVK.scan gvk (pre ++ r :: post) res =
      { r with Group := gvk.Group, Version := gvk.Version } := by
  induction pre with
  | nil =>
    unfold matchesKind at hr
    simp only [List.nil_append, getAPIResourceForGVK.scan, if_pos hr]
  | cons a t ih =>
    have ha : ¬ matchesKind gvk a := hpre a (List.mem_cons_self a t)
    have ht : ∀ x ∈ t, ¬ matchesKind gvk x := fun x hx => hpre x (List.mem_cons_of_mem a hx)
    unfold matchesKind at ha
    simp only [List.cons_append, getAPIResourceForGVK.scan, if_neg ha]
    exact ih ht

theorem exists_first_match (gvk : schema.GroupVersionKind) (l : List metav1.APIResource)
    (h : ∃ x ∈ l, matchesKind gvk x) :
    ∃ pre r post, l = pre ++ r :: post ∧ matchesKind gvk r ∧
      ∀ x ∈ pre, ¬ matchesKind gvk x := by
  induction l with
  | nil => obtain ⟨x, hx, _⟩ := h; cases hx
  | cons a t ih =>
    by_cases ha : matchesKind gvk a
    · exact ⟨[], a, t, rfl, ha, fun x hx => by cases hx⟩
    · obtain ⟨x, hx, hm⟩ := h
      have hxt : x ∈ t := by
        rcases List.mem_cons.mp hx with hxa | hxt
        · exact absurd (hxa ▸ hm) ha
        · exact hxt
      obtain ⟨pre, r, post, hl, hr, hpre⟩ := ih ⟨x, hxt, hm⟩
      refine ⟨a :: pre, r, post, by rw [hl]; rfl, hr, ?_⟩
      intro y hy
      rcases List.mem_cons.mp hy with hya | hyp
      · exact hya ▸ ha
      · exact hpre y hyp

theorem getAPIResourceForGVK_of_list (gvk : schema.GroupVersionKind) (config : Config)
    (resList : List metav1.APIResource)
    (hclient : config.NewDiscoveryClientForConfig = none)
    (hlist : config.ServerResourcesForGroupVersion gvk.GroupVersion.string = .ok resList) :
    getAPIResourceForGVK gvk config =
      ([.ServerResourcesForGroupVersion gvk.GroupVersion.string],
        .ok (getAPIResourceForGVK.scan gvk resList metav1.APIResource.zero)) := by
  simp only [getAPIResourceForGVK, hclient, hlist]

theorem getAPIResourceForGVK_no_match (gvk : schema.GroupVersionKind) (config : Config)
    (resList : List metav1.APIResource)
    (hclient : config.NewDiscoveryClientForConfig = none)
    (hlist : config.ServerResourcesForGroupVersion gvk.GroupVersion.string = .ok resList)
    (hnone : ∀ x ∈ resList, ¬ matchesKind gvk x) :
    (getAPIResourceForGVK gvk config).2 = .ok metav1.APIResource.zero := by
  rw [getAPIResourceForGVK_of_list gvk config resList hclient hlist,
    scan_no_match gvk resList _ hnone]

/-- Claim C5. When discovery returns a resource list holding an entry of the
requested kind whose name has no "/", `getAPIResourceForGVK` returns the first
such entry of the list (stamped with the requested group and version), and
`getDynamicClientOnKind` yields the client of the resource (requested group,
requested version, that entry's name) with that entry's namespaced flag. -/
theorem getAPIResourceForGVK_first_match (gvk : schema.GroupVersionKind) (config : Config)
    (resList : List metav1.APIResource)
    (hclient : config.NewDiscoveryClientForConfig = none)
    (hlist : config.ServerResourcesForGroupVersion gvk.GroupVersion.string = .ok resList)
    (hsome : ∃ x ∈ resList, x.Kind = gvk.Kind ∧ strings.Contains x.Name "/" = false) :
    ∃ pre r post, resList = pre ++ r :: post ∧
      (r.Kind = gvk.Kind ∧ strings.Contains r.Name "/" = false) ∧
      (∀ x ∈ pre, ¬ (x.Kind = gvk.Kind ∧ strings.Contains x.Name "/" = false)) ∧
      (getAPIResourceForGVK gvk config).2 =
        .ok { r with Group := gvk.Group, Version := gvk.Version } ∧
      ∀ apiversion kind, schema.FromAPIVersionAndKind apiversion kind = gvk →
        config.NewForConfig = none →
        (getDynamicClientOnKind apiversion kind config).2 =
          .ok (dynamic.Resource { Group := gvk.Group, Version := gvk.Version,
                                  Resource := r.Name }, r.Namespaced) := by
  have hsome' : ∃ x ∈ resList, matchesKind gvk x := by
    obtain ⟨x, hx, hk, hn⟩ := hsome
    exact ⟨x, hx, hk, by simp [hn]⟩
  obtain ⟨pre, r, post, hl, hr, hpre⟩ := exists_first_match gvk resList hsome'
  have hget : getAPIResourceForGVK gvk config =
      ([.ServerResourcesForGroupVersion gvk.GroupVersion.string],
        .ok { r with Group := gvk.Group, Version := gvk.Version }) := by
    rw [getAPIResourceForGVK_of_list gvk config resList hclient hlist, hl,
      scan_first_match gvk pre r post _ hpre hr]
  refine ⟨pre, r, post, hl, ⟨hr.1, by simpa using hr.2⟩, ?_, ?_, ?_⟩
  · intro x hx hm
    exact hpre x hx ⟨hm.1, by simp [hm.2]⟩
  · rw [hget]
  · intro apiversion kind hgvk hdyn
    simp only [getDynamicClientOnKind, hgvk, hget, hdyn]

/-- Witness of claim C5: for kind `Pod` the sample core list, which starts with
the subresource entry "pods/status", resolves to the entry "pods". -/
theorem getAPIResourceForGVK_first_match_witness :
    sampleConfig.ServerResourcesForGroupVersion "v1" = .ok sampleCoreV1 ∧
    (getDynamicClientOnKind "v1" "Pod" sampleConfig).2 =
      .ok (dynamic.Resource { Group := "", Version := "v1", Resource := "pods" }, true) ∧
    ∃ pre r post, sampleCoreV1 = pre ++ r :: post ∧
      (r.Kind = "Pod" ∧ strings.Contains r.Name "/" = false) ∧
      (∀ x ∈ pre, ¬ (x.Kind = "Pod" ∧ strings.Contains x.Name "/" = false)) ∧
      (getAPIResourceForGVK { Group := "", Version := "v1", Kind := "Pod" } sampleConfig).2 =
        .ok { r with Group := "", Version := "v1" } ∧
      ∀ apiversion kind,
        schema.FromAPIVersionAndKind apiversion kind =
          { Group := "", Version := "v1", Kind := "Pod" } →
        sampleConfig.NewForConfig = none →
        (getDynamicClientOnKind apiversion kind sampleConfig).2 =
          .ok (dynamic.Resource { Group := "", Version := "v1", Resource := r.Name },
            r.Namespaced) :=
  ⟨by decide, by decide,
    getAPIResourceForGVK_first_match { Group := "", Version := "v1", Kind := "Pod" }
      sampleConfig sampleCoreV1 (by decide) (by decide)
      ⟨apiResource "pods" "Pod" true, by decide, by decide, by decide⟩⟩

/-- Claim C4, the code at the failing input. Discovery answers for "v1" with a
list that has no entry of kind `Widget`; `getAPIResourceForGVK` returns the
empty resource without an error, `getDynamicClientOnKind` returns a client of
the empty GroupVersionResource without an error, and `createOrUpdateResource`
sends a create request through that client instead of skipping the object. -/
theorem getAPIResourceForGVK_unknown_kind_no_error :
    sampleConfig.ServerResourcesForGroupVersion "v1" = .ok sampleCoreV1 ∧
    (∀ x ∈ sampleCoreV1, ¬ (x.Kind = "Widget" ∧ strings.Contains x.Name "/" = false)) ∧
    getAPIResourceForGVK { Group := "", Version := "v1", Kind := "Widget" } sampleConfig =
      ([.ServerResourcesForGroupVersion "v1"], .ok metav1.APIResource.zero) ∧
    getDynamicClientOnKind "v1" "Widget" sampleConfig =
      ([.ServerResourcesForGroupVersion "v1"],
        .ok (dynamic.Resource { Group := "", Version := "", Resource := "" }, false)) ∧
    sampleUnmarshal (bytes widgetJSON) = .ok (sampleObject "v1" "Widget" "w") ∧
    createOrUpdateResource (sampleInformer (.error "unused")) (bytes widgetJSON) "prod" [] =
      ([.ServerResourcesForGroupVersion "v1",
        .Create { resource := { Group := "", Version := "", Resource := "" }, nspace := "" }
          { sampleObject "v1" "Widget" "w" with nspace := "prod" } none],
       [(({ Group := "", Version := "", Resource := "" }, "", "w"),
         { sampleObject "v1" "Widget" "w" with nspace := "prod" })]) := by
  refine ⟨by decide, by decide, by decide, by decide, by decide, by decide⟩

/-! ## Properties of one worker iteration -/

theorem allStrings_map_string (ss : List String) :
    worker.allStrings (ss.map GoValue.string) = true := by
  induction ss with
  | nil => rfl
  | cons s t ih => simpa [worker.allStrings] using ih

theorem allStrings_false_of_mem (list : List GoValue)
    (h : ∃ x ∈ list, ∀ s, x ≠ GoValue.string s) : worker.allStrings list = false := by
  induction list with
  | nil => obtain ⟨x, hx, _⟩ := h; cases hx
  | cons a t ih =>
    cases a with
    | string s =>
      obtain ⟨x, hx, hne⟩ := h
      rcases List.mem_cons.mp hx with hxa | hxt
      · exact absurd hxa (hne s)
      · simpa [worker.allStrings] using ih ⟨x, hxt, hne⟩
    | nil => rfl
    | bool _ => rfl
    | float64 _ => rfl
    | slice _ => rfl
    | map _ => rfl

theorem exists_strings_of_allStrings (list : List GoValue)
    (h : worker.allStrings list = true) : ∃ ss : List String, list = ss.map GoValue.string := by
  induction list with
  | nil => exact ⟨[], rfl⟩
  | cons a t ih =>
    cases a with
    | string s =>
      obtain ⟨ss, hss⟩ := ih (by simpa [worker.allStrings] using h)
      exact ⟨s :: ss, by rw [hss]; rfl⟩
    | nil => simp [worker.allStrings] at h
    | bool _ => simp [worker.allStrings] at h
    | float64 _ => simp [worker.allStrings] at h
    | slice _ => simp [worker.allStrings] at h
    | map _ => simp [worker.allStrings] at h

theorem applyAll_strings {σ : Type} (i : informer σ) (ns : String) (ss : List String) :
    ∀ cluster : σ, ∃ events,
      worker.applyAll i ns (ss.map GoValue.string) cluster =
        some (events,
          ss.foldl (fun c s => (createOrUpdateResource i (bytes s) ns c).2) cluster) ∧
      reconciles events = ss.map (fun s => (bytes s, ns)) ∧
      requeues events = [] ∧ polls events = [] := by
  induction ss with
  | nil => intro cluster; exact ⟨[], rfl, rfl, rfl, rfl⟩
  | cons s t ih =>
    intro cluster
    obtain ⟨events, happly, hrec, hreq, hpolls⟩ :=
      ih (createOrUpdateResource i (bytes s) ns cluster).2
    refine ⟨.createOrUpdateResource (bytes s) ns
      (createOrUpdateResource i (bytes s) ns cluster).1 :: events, ?_, ?_, ?_, ?_⟩
    · simp only [List.map_cons, worker.applyAll, happly, List.foldl_cons]
    · simp only [reconciles, hrec, List.map_cons]
    · simpa only [requeues] using hreq
    · simpa only [polls] using hpolls

theorem shouldPoll_of_ne (tf : Terraform) (h : tf.Spec.OutputsSecret ≠ "") :
    shouldPoll tf = true := by
  simp [shouldPoll, h]

/-- The four ways an iteration that polled ends with a requeue. -/
theorem iteration_requeue {σ : Type} (i : informer σ) (tf : Terraform)
    (rest : List Terraform) (cluster : σ)
    (hpoll : tf.Spec.OutputsSecret ≠ "")
    (hcase : (∃ err, i.clientset tf.UID tf = .error err) ∨
      (∃ result, i.clientset tf.UID tf = .ok result ∧
        (strings.Contains result.Data.StatusInfo.Message "workflow has not completed" = true ∨
         (result.IsSuccess = false ∧
            strings.Contains result.ErrMsg (notFoundMessage tf.UID) = false) ∨
         (result.IsSuccess = true ∧
            ((∀ list, result.Data.Data ≠ .slice list) ∨
             (∃ list, result.Data.Data = .slice list ∧ worker.allStrings list = false)))))) :
    worker.iteration i (tf :: rest) cluster =
      some { events := [.Poll tf.UID tf, .requeueAfter tf (30 * time.Second)],
             queue := rest, cluster := cluster } := by
  have hsp := shouldPoll_of_ne tf hpoll
  rcases hcase with ⟨err, hread⟩ | ⟨result, hread, hmsg | ⟨hsucc, herr⟩ | ⟨hsucc, hdata⟩⟩
  · simp [worker.iteration, requeueAfter, queue.Len, queue.PopFront, hsp, hread]
  · simp [worker.iteration, requeueAfter, queue.Len, queue.PopFront, hsp, hread, hmsg]
  · by_cases hmsg :
        strings.Contains result.Data.StatusInfo.Message "workflow has not completed" = true
    · simp [worker.iteration, requeueAfter, queue.Len, queue.PopFront, hsp, hread, hmsg]
    · simp [worker.iteration, requeueAfter, queue.Len, queue.PopFront, hsp, hread, hmsg, hsucc, herr]
  · by_cases hmsg :
        strings.Contains result.Data.StatusInfo.Message "workflow has not completed" = true
    · simp [worker.iteration, requeueAfter, queue.Len, queue.PopFront, hsp, hread, hmsg]
    · rcases hdata with hno | ⟨list, hlist, hbad⟩
      · simp only [worker.iteration, requeueAfter, queue.Len, queue.PopFront, hsp, hread, hmsg, hsucc]
        cases hd : result.Data.Data with
        | slice list => exact absurd hd (hno list)
        | nil => simp
        | bool _ => simp
        | float64 _ => simp
        | string _ => simp
        | map _ => simp
      · simp [worker.iteration, requeueAfter, queue.Len, queue.PopFront, hsp, hread, hmsg, hsucc, hlist,
          hbad]

/-- An iteration that polled and met the not-found answer ends without a requeue. -/
theorem iteration_not_found {σ : Type} (i : informer σ) (tf : Terraform)
    (rest : List Terraform) (cluster : σ) (result : Result)
    (hpoll : tf.Spec.OutputsSecret ≠ "")
    (hread : i.clientset tf.UID tf = .ok result)
    (hmsg : strings.Contains result.Data.StatusInfo.Message "workflow has not completed" = false)
    (hsucc : result.IsSuccess = false)
    (herr : strings.Contains result.ErrMsg (notFoundMessage tf.UID) = true) :
    worker.iteration i (tf :: rest) cluster =
      some { events := [.Poll tf.UID tf], queue := rest, cluster := cluster } := by
  have hsp := shouldPoll_of_ne tf hpoll
  simp [worker.iteration, requeueAfter, queue.Len, queue.PopFront, hsp, hread, hmsg, hsucc, herr]

/-- An iteration that polled and received a sequence of strings applies them. -/
theorem iteration_apply {σ : Type} (i : informer σ) (tf : Terraform)
    (rest : List Terraform) (cluster : σ) (result : Result) (ss : List String)
    (hpoll : tf.Spec.OutputsSecret ≠ "")
    (hread : i.clientset tf.UID tf = .ok result)
    (hmsg : strings.Contains result.Data.StatusInfo.Message "workflow has not completed" = false)
    (hsucc : result.IsSuccess = true)
    (hdata : result.Data.Data = .slice (ss.map GoValue.string)) :
    ∃ events,
      worker.iteration i (tf :: rest) cluster =
        some { events := .Poll tf.UID tf :: events, queue := rest,
               cluster := ss.foldl
                 (fun c s => (createOrUpdateResource i (bytes s) tf.Namespace c).2) cluster } ∧
      reconciles events = ss.map (fun s => (bytes s, tf.Namespace)) ∧
      requeues events = [] ∧ polls events = [] := by
  have hsp := shouldPoll_of_ne tf hpoll
  obtain ⟨events, happly, hrec, hreq, hpolls⟩ := applyAll_strings i tf.Namespace ss cluster
  refine ⟨events, ?_, hrec, hreq, hpolls⟩
  simp [worker.iteration, requeueAfter, queue.Len, queue.PopFront, hsp, hread, hmsg, hsucc, hdata,
    allStrings_map_string, happly]

/-- Every pass through the loop body ends without a fault, schedules at most
one requeue, and never both requeues and reconciles. -/
theorem iteration_outcome {σ : Type} (i : informer σ) (q : List Terraform) (cluster : σ) :
    ∃ step, worker.iteration i q cluster = some step ∧
      (requeues step.events).length ≤ 1 ∧
      (requeues step.events = [] ∨ reconciles step.events = []) := by
  cases q with
  | nil =>
    exact ⟨{ events := [.Sleep (3 * time.Second)], queue := [], cluster := cluster },
      by simp [worker.iteration, queue.Len], by simp [requeues], Or.inl rfl⟩
  | cons tf rest =>
    by_cases hpoll : tf.Spec.OutputsSecret = ""
    · exact ⟨{ events := [], queue := rest, cluster := cluster },
        by simp [worker.iteration, queue.Len, queue.PopFront, shouldPoll, hpoll],
        by simp [requeues], Or.inl rfl⟩
    · have hrq : ∀ step : Step σ,
          step.events = [.Poll tf.UID tf, .requeueAfter tf (30 * time.Second)] →
          (requeues step.events).length ≤ 1 ∧
            (requeues step.events = [] ∨ reconciles step.events = []) := by
        intro step hev
        rw [hev]
        exact ⟨by simp [requeues], Or.inr rfl⟩
      cases hread : i.clientset tf.UID tf with
      | error err =>
        exact ⟨_, iteration_requeue i tf rest cluster hpoll (Or.inl ⟨err, hread⟩), hrq _ rfl⟩
      | ok result =>
        by_cases hmsg :
            strings.Contains result.Data.StatusInfo.Message "workflow has not completed" = true
        · exact ⟨_, iteration_requeue i tf rest cluster hpoll
            (Or.inr ⟨result, hread, Or.inl hmsg⟩), hrq _ rfl⟩
        · have hmsg' := Bool.eq_false_iff.mpr hmsg
          cases hsucc : result.IsSuccess with
          | false =>
            by_cases herr : strings.Contains result.ErrMsg (notFoundMessage tf.UID) = true
            · exact ⟨_, iteration_not_found i tf rest cluster result hpoll hread hmsg' hsucc herr,
                by simp [requeues], Or.inl rfl⟩
            · exact ⟨_, iteration_requeue i tf rest cluster hpoll
                (Or.inr ⟨result, hread, Or.inr (Or.inl ⟨hsucc, Bool.eq_false_iff.mpr herr⟩)⟩),
                hrq _ rfl⟩
          | true =>
            have hslice : (∀ list, result.Data.Data ≠ .slice list) ∨
                ∃ list, result.Data.Data = .slice list := by
              cases hd : result.Data.Data with
              | slice list => exact Or.inr ⟨list, rfl⟩
              | nil => exact Or.inl (fun _ h => by cases h)
              | bool _ => exact Or.inl (fun _ h => by cases h)
              | float64 _ => exact Or.inl (fun _ h => by cases h)
              | string _ => exact Or.inl (fun _ h => by cases h)
              | map _ => exact Or.inl (fun _ h => by cases h)
            rcases hslice with hno | ⟨list, hlist⟩
            · exact ⟨_, iteration_requeue i tf rest cluster hpoll
                (Or.inr ⟨result, hread, Or.inr (Or.inr ⟨hsucc, Or.inl hno⟩)⟩), hrq _ rfl⟩
            · cases hall : worker.allStrings list with
              | false =>
                exact ⟨_, iteration_requeue i tf rest cluster hpoll
                  (Or.inr ⟨result, hread, Or.inr (Or.inr ⟨hsucc, Or.inr ⟨list, hlist, hall⟩⟩)⟩),
                  hrq _ rfl⟩
              | true =>
                obtain ⟨ss, hss⟩ := exists_strings_of_allStrings list hall
                obtain ⟨events, hit, _, hreq, _⟩ :=
                  iteration_apply i tf rest cluster result ss hpoll hread hmsg' hsucc
                    (hss ▸ hlist)
                refine ⟨_, hit, ?_, Or.inl ?_⟩
                · simp [requeues, hreq]
                · simpa [requeues] using hreq

/-- Claim C1. A popped job with a non-empty outputs secret whose poll succeeds
(no poll error, status message without "workflow has not completed", IsSuccess
true) with a sequence holding at least one item that is not a string, at any
position: the iteration calls `createOrUpdateResource` zero times, leaves the
cluster as it was, and schedules a requeue of that job after 30 seconds. -/
theorem worker_rejects_batch_with_non_string {σ : Type} (i : informer σ) (tf : Terraform)
    (rest : List Terraform) (cluster : σ) (result : Result) (list : List GoValue)
    (hpoll : tf.Spec.OutputsSecret ≠ "")
    (hread : i.clientset tf.UID tf = .ok result)
    (_hmsg : strings.Contains result.Data.StatusInfo.Message "workflow has not completed" = false)
    (hsucc : result.IsSuccess = true)
    (hdata : result.Data.Data = .slice list)
    (hbad : ∃ x ∈ list, ∀ s, x ≠ GoValue.string s) :
    ∃ step, worker.iteration i (tf :: rest) cluster = some step ∧
      reconciles step.events = [] ∧
      requeues step.events = [(tf, 30 * time.Second)] ∧
      30 * time.Second = (30000000000 : Nat) ∧
      step.queue = rest ∧ step.cluster = cluster :=
  ⟨_, iteration_requeue i tf rest cluster hpoll
      (Or.inr ⟨result, hread, Or.inr (Or.inr ⟨hsucc,
        Or.inr ⟨list, hdata, allStrings_false_of_mem list hbad⟩⟩)⟩),
    rfl, rfl, rfl, rfl, rfl⟩

/-- Witness of claim C1: a batch of one valid document followed by a boolean. -/
theorem worker_rejects_batch_with_non_string_witness :
    ∃ step,
      worker.iteration
        (sampleInformer (.ok (sampleResult "done" true ""
          (.slice [.string configMapJSON, .bool true]))))
        [sampleJob, silentJob] [] = some step ∧
      reconciles step.events = [] ∧
      requeues step.events = [(sampleJob, 30 * time.Second)] ∧
      30 * time.Second = (30000000000 : Nat) ∧
      step.queue = [silentJob] ∧ step.cluster = [] :=
  worker_rejects_batch_with_non_string
    (sampleInformer (.ok (sampleResult "done" true ""
      (.slice [.string configMapJSON, .bool true]))))
    sampleJob [silentJob] []
    (sampleResult "done" true "" (.slice [.string configMapJSON, .bool true]))
    [.string configMapJSON, .bool true]
    (by decide) rfl (by decide) rfl rfl
    ⟨.bool true, by simp, fun s h => by cases h⟩

/-- Claim C2 as stated fails. The job "job1" is polled, the response comes
without transport error, has IsSuccess false and the not-found text for "job1",
and its status message contains "workflow has not completed": the iteration
schedules a requeue of the job. -/
theorem not_found_with_pending_status_requeues :
    sampleJob.UID = "job1" ∧ shouldPoll sampleJob = true ∧
    strings.Contains "terraforms.tf.isaaguilar.com \"job1\" not found"
      (notFoundMessage "job1") = true ∧
    (worker.iteration
      (sampleInformer (.ok (sampleResult "workflow has not completed" false
        "terraforms.tf.isaaguilar.com \"job1\" not found" .nil)))
      [sampleJob] []).map (fun step => requeues step.events) =
        some [(sampleJob, 30 * time.Second)] := by
  refine ⟨by decide, by decide, by decide, by decide⟩

/-- Claim C2, amended. A polled job whose response comes without transport
error, has a status message that does not contain "workflow has not completed",
IsSuccess false and an error text containing the not-found text for the job's
identifier: the iteration schedules no requeue and reconciles no object; the
job leaves the queue. -/
theorem worker_drops_not_found {σ : Type} (i : informer σ) (tf : Terraform)
    (rest : List Terraform) (cluster : σ) (result : Result)
    (hpoll : tf.Spec.OutputsSecret ≠ "")
    (hread : i.clientset tf.UID tf = .ok result)
    (hmsg : strings.Contains result.Data.StatusInfo.Message "workflow has not completed" = false)
    (hsucc : result.IsSuccess = false)
    (herr : strings.Contains result.ErrMsg
      ("terraforms.tf.isaaguilar.com \"" ++ tf.UID ++ "\" not found") = true) :
    ∃ step, worker.iteration i (tf :: rest) cluster = some step ∧
      requeues step.events = [] ∧ reconciles step.events = [] ∧
      step.queue = rest ∧ step.cluster = cluster :=
  ⟨_, iteration_not_found i tf rest cluster result hpoll hread hmsg hsucc herr,
    rfl, rfl, rfl, rfl⟩

/-- Witness of claim C2, amended: the not-found answer for "job1" with an
empty status message and data that would otherwise be applied. -/
theorem worker_drops_not_found_witness :
    ∃ step,
      worker.iteration
        (sampleInformer (.ok (sampleResult "" false
          "GET failed: terraforms.tf.isaaguilar.com \"job1\" not found"
          (.slice [.string configMapJSON]))))
        [sampleJob, silentJob] [] = some step ∧
      requeues step.events = [] ∧ reconciles step.events = [] ∧
      step.queue = [silentJob] ∧ step.cluster = [] :=
  worker_drops_not_found
    (sampleInformer (.ok (sampleResult "" false
      "GET failed: terraforms.tf.isaaguilar.com \"job1\" not found"
      (.slice [.string configMapJSON]))))
    sampleJob [silentJob] []
    (sampleResult "" false "GET failed: terraforms.tf.isaaguilar.com \"job1\" not found"
      (.slice [.string configMapJSON]))
    (by decide) rfl (by decide) rfl (by decide)

/-- Claim C3. For a job whose outputs secret is empty `shouldPoll` is false, and
the iteration that pops it polls nothing, reconciles nothing and schedules no
requeue: the queue afterwards is the queue before without its front item.
Conversely `shouldPoll` is true for every job with a non-empty outputs secret. -/
theorem worker_drops_job_without_outputs_secret {σ : Type} (i : informer σ) (tf : Terraform)
    (rest : List Terraform) (cluster : σ) (hempty : tf.Spec.OutputsSecret = "") :
    shouldPoll tf = false ∧
    (∃ step, worker.iteration i (tf :: rest) cluster = some step ∧
      step.events = [] ∧ polls step.events = [] ∧ reconciles step.events = [] ∧
      requeues step.events = [] ∧ step.queue = rest ∧ step.cluster = cluster) ∧
    (∀ other : Terraform, other.Spec.OutputsSecret ≠ "" → shouldPoll other = true) := by
  refine ⟨by simp [shouldPoll, hempty], ⟨{ events := [], queue := rest, cluster := cluster },
    by simp [worker.iteration, queue.Len, queue.PopFront, shouldPoll, hempty],
    rfl, rfl, rfl, rfl, rfl, rfl⟩, fun other h => shouldPoll_of_ne other h⟩

/-- Witness of claim C3: the job without outputs secret in front of another job. -/
theorem worker_drops_job_without_outputs_secret_witness :
    shouldPoll silentJob = false ∧
    (∃ step,
      worker.iteration (sampleInformer (.error "unused")) [silentJob, sampleJob] [] =
        some step ∧
      step.events = [] ∧ polls step.events = [] ∧ reconciles step.events = [] ∧
      requeues step.events = [] ∧ step.queue = [sampleJob] ∧ step.cluster = []) ∧
    (∀ other : Terraform, other.Spec.OutputsSecret ≠ "" → shouldPoll other = true) :=
  worker_drops_job_without_outputs_secret (sampleInformer (.error "unused")) silentJob
    [sampleJob] [] rfl

/-- Claim C7. A polled job whose response has no transport error, a status
message without "workflow has not completed", IsSuccess true and as data a
sequence of n strings (n may be 0): the iteration calls `createOrUpdateResource`
exactly n times, the k-th call with the bytes of the k-th string and the job's
own namespace, each on the cluster state the previous call left, and schedules
no requeue. -/
theorem worker_applies_batch_in_order {σ : Type} (i : informer σ) (tf : Terraform)
    (rest : List Terraform) (cluster : σ) (result : Result) (ss : List String)
    (hpoll : tf.Spec.OutputsSecret ≠ "")
    (hread : i.clientset tf.UID tf = .ok result)
    (hmsg : strings.Contains result.Data.StatusInfo.Message "workflow has not completed" = false)
    (hsucc : result.IsSuccess = true)
    (hdata : result.Data.Data = .slice (ss.map GoValue.string)) :
    ∃ step, worker.iteration i (tf :: rest) cluster = some step ∧
      reconciles step.events = ss.map (fun s => (bytes s, tf.Namespace)) ∧
      (reconciles step.events).length = ss.length ∧
      requeues step.events = [] ∧
      polls step.events = [(tf.UID, tf)] ∧
      step.queue = rest ∧
      step.cluster =
        ss.foldl (fun c s => (createOrUpdateResource i (bytes s) tf.Namespace c).2) cluster := by
  obtain ⟨events, hit, hrec, hreq, hpolls⟩ :=
    iteration_apply i tf rest cluster result ss hpoll hread hmsg hsucc hdata
  refine ⟨_, hit, ?_, ?_, ?_, ?_, rfl, rfl⟩
  · simpa [reconciles] using hrec
  · simp [reconciles, hrec]
  · simpa [requeues] using hreq
  · simp [polls, hpolls]

/-- Witness of claim C7: a batch of two documents. -/
theorem worker_applies_batch_in_order_witness :
    ∃ step,
      worker.iteration
        (sampleInformer (.ok (sampleResult "done" true ""
          (.slice ([configMapJSON, eventJSON].map GoValue.string)))))
        [sampleJob] [] = some step ∧
      reconciles step.events =
        [configMapJSON, eventJSON].map (fun s => (bytes s, sampleJob.Namespace)) ∧
      (reconciles step.events).length = [configMapJSON, eventJSON].length ∧
      requeues step.events = [] ∧
      polls step.events = [(sampleJob.UID, sampleJob)] ∧
      step.queue = [] ∧
      step.cluster =
        [configMapJSON, eventJSON].foldl
          (fun c s => (createOrUpdateResource
            (sampleInformer (.ok (sampleResult "done" true ""
              (.slice ([configMapJSON, eventJSON].map GoValue.string)))))
            (bytes s) sampleJob.Namespace c).2) [] :=
  worker_applies_batch_in_order
    (sampleInformer (.ok (sampleResult "done" true ""
      (.slice ([configMapJSON, eventJSON].map GoValue.string)))))
    sampleJob [] []
    (sampleResult "done" true "" (.slice ([configMapJSON, eventJSON].map GoValue.string)))
    [configMapJSON, eventJSON]
    (by decide) rfl (by decide) rfl rfl

/-- Claim C10 as stated fails. The job "job1" is polled and the response has a
data field that is not a sequence, but it is the not-found answer for "job1"
(IsSuccess false, status message empty): the iteration schedules no requeue. -/
theorem not_found_without_sequence_is_not_requeued :
    shouldPoll sampleJob = true ∧
    (∀ list, (sampleResult "" false "terraforms.tf.isaaguilar.com \"job1\" not found"
      .nil).Data.Data ≠ .slice list) ∧
    (worker.iteration
      (sampleInformer (.ok (sampleResult "" false
        "terraforms.tf.isaaguilar.com \"job1\" not found" .nil)))
      [sampleJob] []).map (fun step => requeues step.events) = some [] := by
  refine ⟨by decide, fun list h => ?_, by decide⟩
  simp [sampleResult] at h

/-- Claim C10, amended. For a polled job, if the poll call returns an error, or
a response whose status message contains "workflow has not completed", or
IsSuccess false with an error text that does not contain the not-found text for
the job's identifier, or IsSuccess true with a data field that is not a
sequence, then the iteration schedules exactly one requeue, of that job, after
exactly 30 seconds, and reconciles nothing. Every iteration ends, schedules at
most one requeue, and never both requeues and reconciles. -/
theorem worker_requeues_recoverable {σ : Type} (i : informer σ) (tf : Terraform)
    (rest : List Terraform) (cluster : σ)
    (hpoll : tf.Spec.OutputsSecret ≠ "")
    (hcase : (∃ err, i.clientset tf.UID tf = .error err) ∨
      (∃ result, i.clientset tf.UID tf = .ok result ∧
        (strings.Contains result.Data.StatusInfo.Message "workflow has not completed" = true ∨
         (result.IsSuccess = false ∧
            strings.Contains result.ErrMsg
              ("terraforms.tf.isaaguilar.com \"" ++ tf.UID ++ "\" not found") = false) ∨
         (result.IsSuccess = true ∧ ∀ list, result.Data.Data ≠ .slice list)))) :
    (∃ step, worker.iteration i (tf :: rest) cluster = some step ∧
      requeues step.events = [(tf, 30 * time.Second)] ∧
      30 * time.Second = (30000000000 : Nat) ∧
      reconciles step.events = [] ∧ step.queue = rest ∧ step.cluster = cluster) ∧
    (∀ (q : List Terraform) (c : σ), ∃ step, worker.iteration i q c = some step ∧
      (requeues step.events).length ≤ 1 ∧
      (requeues step.events = [] ∨ reconciles step.events = [])) := by
  refine ⟨⟨_, iteration_requeue i tf rest cluster hpoll ?_, rfl, rfl, rfl, rfl, rfl⟩,
    fun q c => iteration_outcome i q c⟩
  rcases hcase with herr | ⟨result, hread, hmsg | hfail | ⟨hsucc, hno⟩⟩
  · exact Or.inl herr
  · exact Or.inr ⟨result, hread, Or.inl hmsg⟩
  · exact Or.inr ⟨result, hread, Or.inr (Or.inl hfail)⟩
  · exact Or.inr ⟨result, hread, Or.inr (Or.inr ⟨hsucc, Or.inl hno⟩)⟩

/-- Witness of claim C10, amended: a successful response whose data is a
mapping, not a sequence. -/
theorem worker_requeues_recoverable_witness :
    (∃ step,
      worker.iteration (sampleInformer (.ok (sampleResult "done" true "" (.map []))))
        [sampleJob, silentJob] [] = some step ∧
      requeues step.events = [(sampleJob, 30 * time.Second)] ∧
      30 * time.Second = (30000000000 : Nat) ∧
      reconciles step.events = [] ∧ step.queue = [silentJob] ∧ step.cluster = []) ∧
    (∀ (q : List Terraform) (c : Store), ∃ step,
      worker.iteration (sampleInformer (.ok (sampleResult "done" true "" (.map [])))) q c =
        some step ∧
      (requeues step.events).length ≤ 1 ∧
      (requeues step.events = [] ∨ reconciles step.events = [])) :=
  worker_requeues_recoverable (sampleInformer (.ok (sampleResult "done" true "" (.map []))))
    sampleJob [silentJob] [] (by decide)
    (Or.inr ⟨sampleResult "done" true "" (.map []), rfl,
      Or.inr (Or.inr ⟨rfl, fun list h => by simp [sampleResult] at h⟩)⟩)

/-! ## Properties of the resource reconciler -/

/-- What `createOrUpdateResource` does for bytes that decode and a kind for
which a client is obtained. -/
theorem createOrUpdateResource_of_client {σ : Type} (i : informer σ) (b : List Nat)
    (ns : String) (cluster : σ) (obj : Unstructured) (calls : List ClusterCall)
    (client : dynamic.ResourceClient) (isNamespaced : Bool)
    (hdec : i.Unmarshal b = .ok obj)
    (hres : getDynamicClientOnKind obj.GroupVersionKind.Version obj.GroupVersionKind.Kind
      i.config = (calls, .ok (client, isNamespaced))) :
    createOrUpdateResource i b ns cluster =
      match i.Create (sendingClient client isNamespaced ns) (sentObject obj ns) cluster with
      | (some err, c1) =>
        if kerrors.IsAlreadyExists err then
          (calls ++ [.Create (sendingClient client isNamespaced ns) (sentObject obj ns) (some err),
             .Update (sendingClient client isNamespaced ns) (sentObject obj ns)
               (i.Update (sendingClient client isNamespaced ns) (sentObject obj ns) c1).1],
           (i.Update (sendingClient client isNamespaced ns) (sentObject obj ns) c1).2)
        else
          (calls ++ [.Create (sendingClient client isNamespaced ns) (sentObject obj ns)
            (some err)], c1)
      | (none, c1) =>
        (calls ++ [.Create (sendingClient client isNamespaced ns) (sentObject obj ns) none],
          c1) := by
  unfold createOrUpdateResource
  simp only [hdec]
  cases hl : obj.GetLabels.lookup "tfo.galleybytes.com/original-name" with
  | none =>
    have hobj : sentObject obj ns =
        (((obj.SetNamespace ns).SetResourceVersion "").SetUID "").SetOwnerReferences [] := by
      simp only [sentObject]
      rw [hl]; rfl
    simp only [hres, hobj, sendingClient]
  | some name =>
    have hgvk : (obj.SetName name).GroupVersionKind = obj.GroupVersionKind := rfl
    have hobj : sentObject obj ns =
        ((((obj.SetName name).SetNamespace ns).SetResourceVersion "").SetUID "").SetOwnerReferences
          [] := by
      simp only [sentObject]
      rw [hl]; rfl
    simp only [hgvk, hres, hobj, sendingClient]

theorem strings_lookup (kvs : List (String × unstructured.Value))
    (m : List (String × String)) (key name : String)
    (h : unstructured.NestedStringMap.strings kvs = some m) :
    m.lookup key = some name ↔ kvs.lookup key = some (.string name) := by
  induction kvs generalizing m with
  | nil =>
    simp only [unstructured.NestedStringMap.strings, Option.some.injEq] at h
    subst h
    simp
  | cons kv rest ih =>
    obtain ⟨k, v⟩ := kv
    cases v with
    | other j => simp [unstructured.NestedStringMap.strings] at h
    | string str =>
      cases hrest : unstructured.NestedStringMap.strings rest with
      | none => simp [unstructured.NestedStringMap.strings, hrest] at h
      | some m0 =>
        simp only [unstructured.NestedStringMap.strings, hrest, Option.some.injEq] at h
        subst h
        by_cases hk : key = k
        · subst hk
          simp [List.lookup]
        · have hb : (key == k) = false := by simpa using hk
          simp only [List.lookup, hb]
          exact ih m0 hrest

theorem strings_of_all_strings (kvs : List (String × unstructured.Value))
    (h : ∀ kv ∈ kvs, ∃ str, kv.2 = unstructured.Value.string str) :
    ∃ m, unstructured.NestedStringMap.strings kvs = some m := by
  induction kvs with
  | nil => exact ⟨[], rfl⟩
  | cons kv rest ih =>
    obtain ⟨k, v⟩ := kv
    obtain ⟨str, hv⟩ := h (k, v) (List.mem_cons_self _ _)
    obtain ⟨m0, hm0⟩ := ih (fun kv hkv => h kv (List.mem_cons_of_mem _ hkv))
    simp only at hv
    subst hv
    exact ⟨(k, str) :: m0, by simp [unstructured.NestedStringMap.strings, hm0]⟩

theorem all_strings_of_strings (kvs : List (String × unstructured.Value))
    (m : List (String × String))
    (h : unstructured.NestedStringMap.strings kvs = some m) :
    ∀ kv ∈ kvs, ∃ str, kv.2 = unstructured.Value.string str := by
  induction kvs generalizing m with
  | nil => intro kv hkv; cases hkv
  | cons kv rest ih =>
    obtain ⟨k, v⟩ := kv
    cases v with
    | other j => simp [unstructured.NestedStringMap.strings] at h
    | string str =>
      cases hrest : unstructured.NestedStringMap.strings rest with
      | none => simp [unstructured.NestedStringMap.strings, hrest] at h
      | some m0 =>
        intro kv hkv
        rcases List.mem_cons.mp hkv with hhead | htail
        · exact ⟨str, by rw [hhead]⟩
        · exact ih m0 hrest kv htail

/-- `GetLabels` gives a label exactly when the labels of the document are a map
whose values are all strings and that holds the label. -/
theorem GetLabels_lookup (obj : Unstructured) (key name : String) :
    obj.GetLabels.lookup key = some name ↔
      ∃ kvs, obj.labels = .map kvs ∧
        (∀ kv ∈ kvs, ∃ str, kv.2 = unstructured.Value.string str) ∧
        kvs.lookup key = some (.string name) := by
  constructor
  · intro h
    cases hl : obj.labels with
    | absent => simp [Unstructured.GetLabels, hl] at h
    | notMap j => simp [Unstructured.GetLabels, hl] at h
    | map kvs =>
      cases hs : unstructured.NestedStringMap.strings kvs with
      | none => simp [Unstructured.GetLabels, hl, hs] at h
      | some m =>
        simp only [Unstructured.GetLabels, hl, hs] at h
        exact ⟨kvs, rfl, all_strings_of_strings kvs m hs,
          (strings_lookup kvs m key name hs).mp h⟩
  · rintro ⟨kvs, hl, hall, hlook⟩
    obtain ⟨m, hs⟩ := strings_of_all_strings kvs hall
    simp only [Unstructured.GetLabels, hl, hs]
    exact (strings_lookup kvs m key name hs).mpr hlook

/-- Claim C8 as stated fails. The document decodes, its kind resolves, and it
carries the label `tfo.galleybytes.com/original-name` with the value "y"; one
of its other label values is not a string, so `GetLabels` gives no labels and
the object is sent to create under its decoded name "x". -/
theorem original_name_beside_non_string_label_not_applied :
    sampleUnmarshal (bytes mixedLabelsJSON) = .ok mixedLabelsObject ∧
    mixedLabelsObject.name = "x" ∧
    mixedLabelsObject.labels =
      .map [("tfo.galleybytes.com/original-name", .string "y"), ("n", .other "1")] ∧
    mixedLabelsObject.GetLabels = [] ∧
    (createOrUpdateResource (sampleInformer (.error "unused")) (bytes mixedLabelsJSON)
      "prod" []).1 =
      [.ServerResourcesForGroupVersion "v1",
       .Create { resource := { Group := "", Version := "v1", Resource := "configmaps" },
                 nspace := "prod" }
         { mixedLabelsObject with name := "x", nspace := "prod" } none] := by
  refine ⟨by decide, by decide, by decide, by decide, by decide⟩

/-- Claim C8, amended. For bytes that decode and a kind for which a client is
obtained, the first request after discovery is a create, and a fallback update,
when there is one, carries the same object. The object sent is named after the
label `tfo.galleybytes.com/original-name` when the labels of the decoded object
are a map whose values are all strings and that holds the label, and keeps the
decoded name otherwise; its resourceVersion and UID are empty and it has no
owner references; its labels, kind, apiVersion and all other fields are those
of the decoded object. -/
theorem createOrUpdateResource_sends_rewritten_object {σ : Type} (i : informer σ)
    (b : List Nat) (ns : String) (cluster : σ) (obj : Unstructured)
    (calls : List ClusterCall) (client : dynamic.ResourceClient) (isNamespaced : Bool)
    (hdec : i.Unmarshal b = .ok obj)
    (hres : getDynamicClientOnKind obj.GroupVersionKind.Version obj.GroupVersionKind.Kind
      i.config = (calls, .ok (client, isNamespaced))) :
    ∃ dynamicClient sent err rest,
      (createOrUpdateResource i b ns cluster).1 =
        calls ++ .Create dynamicClient sent err :: rest ∧
      (rest = [] ∨ ∃ uerr, rest = [.Update dynamicClient sent uerr]) ∧
      (∀ name,
        (∃ kvs, obj.labels = .map kvs ∧
          (∀ kv ∈ kvs, ∃ str, kv.2 = unstructured.Value.string str) ∧
          kvs.lookup "tfo.galleybytes.com/original-name" = some (.string name)) →
        sent.name = name) ∧
      ((¬ ∃ name kvs, obj.labels = .map kvs ∧
          (∀ kv ∈ kvs, ∃ str, kv.2 = unstructured.Value.string str) ∧
          kvs.lookup "tfo.galleybytes.com/original-name" = some (.string name)) →
        sent.name = obj.name) ∧
      sent.resourceVersion = "" ∧ sent.uid = "" ∧ sent.ownerReferences = [] ∧
      sent.labels = obj.labels ∧ sent.kind = obj.kind ∧ sent.apiVersion = obj.apiVersion ∧
      sent.fields = obj.fields := by
  have hname1 : ∀ name,
      (∃ kvs, obj.labels = .map kvs ∧
        (∀ kv ∈ kvs, ∃ str, kv.2 = unstructured.Value.string str) ∧
        kvs.lookup "tfo.galleybytes.com/original-name" = some (.string name)) →
      (sentObject obj ns).name = name := by
    intro name h
    have hl := (GetLabels_lookup obj "tfo.galleybytes.com/original-name" name).mpr h
    simp only [sentObject]
    rw [hl]
  have hname2 : (¬ ∃ name kvs, obj.labels = .map kvs ∧
        (∀ kv ∈ kvs, ∃ str, kv.2 = unstructured.Value.string str) ∧
        kvs.lookup "tfo.galleybytes.com/original-name" = some (.string name)) →
      (sentObject obj ns).name = obj.name := by
    intro h
    cases hl : obj.GetLabels.lookup "tfo.galleybytes.com/original-name" with
    | none =>
      simp only [sentObject]
      rw [hl]
    | some name =>
      exact absurd
        ⟨name, (GetLabels_lookup obj "tfo.galleybytes.com/original-name" name).mp hl⟩ h
  rw [createOrUpdateResource_of_client i b ns cluster obj calls client isNamespaced hdec hres]
  rcases hc : i.Create (sendingClient client isNamespaced ns) (sentObject obj ns) cluster with
    ⟨err, c1⟩
  cases err with
  | none =>
    exact ⟨sendingClient client isNamespaced ns, sentObject obj ns, none, [], rfl, Or.inl rfl,
      hname1, hname2, rfl, rfl, rfl, rfl, rfl, rfl, rfl⟩
  | some e =>
    cases he : kerrors.IsAlreadyExists e with
    | false =>
      refine ⟨sendingClient client isNamespaced ns, sentObject obj ns, some e, [], ?_,
        Or.inl rfl, hname1, hname2, rfl, rfl, rfl, rfl, rfl, rfl, rfl⟩
      simp [he]
    | true =>
      refine ⟨sendingClient client isNamespaced ns, sentObject obj ns, some e,
        [.Update (sendingClient client isNamespaced ns) (sentObject obj ns)
          (i.Update (sendingClient client isNamespaced ns) (sentObject obj ns) c1).1], ?_,
        Or.inr ⟨_, rfl⟩, hname1, hname2, rfl, rfl, rfl, rfl, rfl, rfl, rfl⟩
      simp [he]

/-- Witness of claim C8, amended: the labelled `ConfigMap` copied from a hub
cluster, whose document holds a hub name, a hub identity and an owner. -/
theorem createOrUpdateResource_sends_rewritten_object_witness :
    sampleUnmarshal (bytes configMapJSON) = .ok configMapObject ∧
    (createOrUpdateResource (sampleInformer (.error "unused")) (bytes configMapJSON)
      "prod" []).1 =
      [.ServerResourcesForGroupVersion "v1",
       .Create { resource := { Group := "", Version := "v1", Resource := "configmaps" },
                 nspace := "prod" }
         { configMapObject with name := "settings", nspace := "prod", resourceVersion := "",
                                uid := "", ownerReferences := [] } none] ∧
    ∃ dynamicClient sent err rest,
      (createOrUpdateResource (sampleInformer (.error "unused")) (bytes configMapJSON)
        "prod" []).1 =
        [.ServerResourcesForGroupVersion "v1"] ++ .Create dynamicClient sent err :: rest ∧
      (rest = [] ∨ ∃ uerr, rest = [.Update dynamicClient sent uerr]) ∧
      (∀ name,
        (∃ kvs, configMapObject.labels = .map kvs ∧
          (∀ kv ∈ kvs, ∃ str, kv.2 = unstructured.Value.string str) ∧
          kvs.lookup "tfo.galleybytes.com/original-name" = some (.string name)) →
        sent.name = name) ∧
      ((¬ ∃ name kvs, configMapObject.labels = .map kvs ∧
          (∀ kv ∈ kvs, ∃ str, kv.2 = unstructured.Value.string str) ∧
          kvs.lookup "tfo.galleybytes.com/original-name" = some (.string name)) →
        sent.name = configMapObject.name) ∧
      sent.resourceVersion = "" ∧ sent.uid = "" ∧ sent.ownerReferences = [] ∧
      sent.labels = configMapObject.labels ∧ sent.kind = configMapObject.kind ∧
      sent.apiVersion = configMapObject.apiVersion ∧
      sent.fields = configMapObject.fields :=
  ⟨by decide, by decide,
    createOrUpdateResource_sends_rewritten_object (sampleInformer (.error "unused"))
      (bytes configMapJSON) "prod" [] configMapObject [.ServerResourcesForGroupVersion "v1"]
      (dynamic.Resource { Group := "", Version := "v1", Resource := "configmaps" }) true
      (by decide) (by decide)⟩

/-- Claim C9, the code at the failing inputs. An `Event` of "events.k8s.io/v1"
decodes to the GroupVersionKind (events.k8s.io, v1, Event), yet discovery is
asked for "v1" and the create goes to the resource (core group, v1, events).
A `Deployment` of "apps/v1" decodes to (apps, v1, Deployment), yet discovery
is asked for "v1", where no such kind is listed, and the create goes to the
empty resource. -/
theorem createOrUpdateResource_drops_api_group :
    sampleUnmarshal (bytes eventJSON) = .ok (sampleObject "events.k8s.io/v1" "Event" "e") ∧
    (sampleObject "events.k8s.io/v1" "Event" "e").GroupVersionKind =
      { Group := "events.k8s.io", Version := "v1", Kind := "Event" } ∧
    sampleConfig.ServerResourcesForGroupVersion "events.k8s.io/v1" =
      .ok [apiResource "events" "Event" true] ∧
    (createOrUpdateResource (sampleInformer (.error "unused")) (bytes eventJSON) "prod" []).1 =
      [.ServerResourcesForGroupVersion "v1",
       .Create { resource := { Group := "", Version := "v1", Resource := "events" },
                 nspace := "prod" }
         { sampleObject "events.k8s.io/v1" "Event" "e" with nspace := "prod" } none] ∧
    sampleUnmarshal (bytes deploymentJSON) = .ok (sampleObject "apps/v1" "Deployment" "d") ∧
    (sampleObject "apps/v1" "Deployment" "d").GroupVersionKind =
      { Group := "apps", Version := "v1", Kind := "Deployment" } ∧
    sampleConfig.ServerResourcesForGroupVersion "apps/v1" =
      .ok [apiResource "deployments" "Deployment" true] ∧
    (createOrUpdateResource (sampleInformer (.error "unused")) (bytes deploymentJSON)
      "prod" []).1 =
      [.ServerResourcesForGroupVersion "v1",
       .Create { resource := { Group := "", Version := "", Resource := "" }, nspace := "" }
         { sampleObject "apps/v1" "Deployment" "d" with nspace := "prod" } none] := by
  refine ⟨by decide, by decide, by decide, by decide, by decide, by decide, by decide,
    by decide⟩

/-! ## Idempotence of reconciliation over the map cluster -/

theorem Store.lookup_cons_eq (k : Key) (o' : Unstructured) (t : Store) :
    Store.lookup ((k, o') :: t) k = some o' := by
  simp [Store.lookup]

theorem Store.lookup_cons_ne (k' k : Key) (o' : Unstructured) (t : Store) (hk : k' ≠ k) :
    Store.lookup ((k', o') :: t) k = Store.lookup t k := by
  simp [Store.lookup, hk]

theorem Store.overwrite_cons_eq (k : Key) (o' o : Unstructured) (t : Store) :
    Store.overwrite ((k, o') :: t) k o = (k, o) :: Store.overwrite t k o := by
  simp [Store.overwrite]

theorem Store.overwrite_cons_ne (k' k : Key) (o' o : Unstructured) (t : Store) (hk : k' ≠ k) :
    Store.overwrite ((k', o') :: t) k o = (k', o') :: Store.overwrite t k o := by
  simp [Store.overwrite, hk]

theorem Store.count_cons_eq (k : Key) (o' : Unstructured) (t : Store) :
    Store.count ((k, o') :: t) k = Store.count t k + 1 := by
  simp [Store.count]

theorem Store.count_cons_ne (k' k : Key) (o' : Unstructured) (t : Store) (hk : k' ≠ k) :
    Store.count ((k', o') :: t) k = Store.count t k := by
  simp [Store.count, hk]

theorem Store.lookup_append_self (s : Store) (k : Key) (o : Unstructured)
    (h : Store.lookup s k = none) : Store.lookup (s ++ [(k, o)]) k = some o := by
  induction s with
  | nil => exact Store.lookup_cons_eq k o []
  | cons e t ih =>
    obtain ⟨k', o'⟩ := e
    by_cases hk : k' = k
    · subst hk
      rw [Store.lookup_cons_eq] at h
      cases h
    · rw [Store.lookup_cons_ne k' k o' t hk] at h
      show Store.lookup ((k', o') :: (t ++ [(k, o)])) k = some o
      rw [Store.lookup_cons_ne k' k o' _ hk]
      exact ih h

theorem Store.overwrite_of_lookup_none (s : Store) (k : Key) (o : Unstructured)
    (h : Store.lookup s k = none) : Store.overwrite s k o = s := by
  induction s with
  | nil => rfl
  | cons e t ih =>
    obtain ⟨k', o'⟩ := e
    by_cases hk : k' = k
    · subst hk
      rw [Store.lookup_cons_eq] at h
      cases h
    · rw [Store.lookup_cons_ne k' k o' t hk] at h
      rw [Store.overwrite_cons_ne k' k o' o t hk, ih h]

theorem Store.overwrite_overwrite (s : Store) (k : Key) (o : Unstructured) :
    Store.overwrite (Store.overwrite s k o) k o = Store.overwrite s k o := by
  induction s with
  | nil => rfl
  | cons e t ih =>
    obtain ⟨k', o'⟩ := e
    by_cases hk : k' = k
    · subst hk
      rw [Store.overwrite_cons_eq, Store.overwrite_cons_eq, ih]
    · rw [Store.overwrite_cons_ne k' k o' o t hk, Store.overwrite_cons_ne k' k o' o _ hk, ih]

theorem Store.overwrite_append_self (s : Store) (k : Key) (o : Unstructured)
    (h : Store.lookup s k = none) :
    Store.overwrite (s ++ [(k, o)]) k o = s ++ [(k, o)] := by
  induction s with
  | nil => exact Store.overwrite_cons_eq k o o []
  | cons e t ih =>
    obtain ⟨k', o'⟩ := e
    by_cases hk : k' = k
    · subst hk
      rw [Store.lookup_cons_eq] at h
      cases h
    · rw [Store.lookup_cons_ne k' k o' t hk] at h
      show Store.overwrite ((k', o') :: (t ++ [(k, o)])) k o = (k', o') :: (t ++ [(k, o)])
      rw [Store.overwrite_cons_ne k' k o' o _ hk, ih h]

theorem Store.lookup_overwrite (s : Store) (k : Key) (o o0 : Unstructured)
    (h : Store.lookup s k = some o0) : Store.lookup (Store.overwrite s k o) k = some o := by
  induction s with
  | nil => cases h
  | cons e t ih =>
    obtain ⟨k', o'⟩ := e
    by_cases hk : k' = k
    · subst hk
      rw [Store.overwrite_cons_eq, Store.lookup_cons_eq]
    · rw [Store.lookup_cons_ne k' k o' t hk] at h
      rw [Store.overwrite_cons_ne k' k o' o t hk, Store.lookup_cons_ne k' k o' _ hk]
      exact ih h

theorem Store.count_of_lookup_none (s : Store) (k : Key) (h : Store.lookup s k = none) :
    Store.count s k = 0 := by
  induction s with
  | nil => rfl
  | cons e t ih =>
    obtain ⟨k', o'⟩ := e
    by_cases hk : k' = k
    · subst hk
      rw [Store.lookup_cons_eq] at h
      cases h
    · rw [Store.lookup_cons_ne k' k o' t hk] at h
      rw [Store.count_cons_ne k' k o' t hk, ih h]

theorem Store.count_append_self (s : Store) (k : Key) (o : Unstructured) :
    Store.count (s ++ [(k, o)]) k = Store.count s k + 1 := by
  induction s with
  | nil => exact Store.count_cons_eq k o []
  | cons e t ih =>
    obtain ⟨k', o'⟩ := e
    show Store.count ((k', o') :: (t ++ [(k, o)])) k = Store.count ((k', o') :: t) k + 1
    by_cases hk : k' = k
    · subst hk
      rw [Store.count_cons_eq, Store.count_cons_eq, ih]
    · rw [Store.count_cons_ne k' k o' _ hk, Store.count_cons_ne k' k o' _ hk, ih]

theorem Store.count_overwrite (s : Store) (k : Key) (o : Unstructured) :
    Store.count (Store.overwrite s k o) k = Store.count s k := by
  induction s with
  | nil => rfl
  | cons e t ih =>
    obtain ⟨k', o'⟩ := e
    by_cases hk : k' = k
    · subst hk
      rw [Store.overwrite_cons_eq, Store.count_cons_eq, Store.count_cons_eq, ih]
    · rw [Store.overwrite_cons_ne k' k o' o t hk, Store.count_cons_ne k' k o' _ hk,
        Store.count_cons_ne k' k o' _ hk, ih]

theorem Store.count_pos_of_lookup_some (s : Store) (k : Key) (o0 : Unstructured)
    (h : Store.lookup s k = some o0) : 1 ≤ Store.count s k := by
  induction s with
  | nil => cases h
  | cons e t ih =>
    obtain ⟨k', o'⟩ := e
    by_cases hk : k' = k
    · subst hk
      rw [Store.count_cons_eq]
      omega
    · rw [Store.lookup_cons_ne k' k o' t hk] at h
      rw [Store.count_cons_ne k' k o' t hk]
      exact ih h

/-- One application over the map cluster, by whether the key is present. -/
theorem createOrUpdateResource_store
    (clientset : String → Terraform → Except String Result) (config : Config)
    (Unmarshal : List Nat → Except String Unstructured) (b : List Nat) (ns : String)
    (obj : Unstructured) (calls : List ClusterCall) (client : dynamic.ResourceClient)
    (isNamespaced : Bool)
    (hdec : Unmarshal b = .ok obj)
    (hres : getDynamicClientOnKind obj.GroupVersionKind.Version obj.GroupVersionKind.Kind
      config = (calls, .ok (client, isNamespaced)))
    (t : Store) :
    (Store.lookup t (Store.key (sendingClient client isNamespaced ns) (sentObject obj ns)) =
        none →
      createOrUpdateResource (storeInformer clientset config Unmarshal) b ns t =
        (calls ++ [.Create (sendingClient client isNamespaced ns) (sentObject obj ns) none],
         t ++ [(Store.key (sendingClient client isNamespaced ns) (sentObject obj ns),
                sentObject obj ns)])) ∧
    (∀ o0,
      Store.lookup t (Store.key (sendingClient client isNamespaced ns) (sentObject obj ns)) =
        some o0 →
      createOrUpdateResource (storeInformer clientset config Unmarshal) b ns t =
        (calls ++ [.Create (sendingClient client isNamespaced ns) (sentObject obj ns)
            (some .AlreadyExists),
          .Update (sendingClient client isNamespaced ns) (sentObject obj ns) none],
         Store.overwrite t
           (Store.key (sendingClient client isNamespaced ns) (sentObject obj ns))
           (sentObject obj ns))) := by
  have heq := createOrUpdateResource_of_client (storeInformer clientset config Unmarshal)
    b ns t obj calls client isNamespaced hdec hres
  constructor
  · intro h
    rw [heq]
    simp only [storeInformer, Store.Create, h]
  · intro o0 h
    rw [heq]
    simp only [storeInformer, Store.Create, Store.Update, h, kerrors.IsAlreadyExists, if_true]

/-- After one application over the map cluster the key is present. -/
theorem lookup_after_application
    (clientset : String → Terraform → Except String Result) (config : Config)
    (Unmarshal : List Nat → Except String Unstructured) (b : List Nat) (ns : String)
    (obj : Unstructured) (calls : List ClusterCall) (client : dynamic.ResourceClient)
    (isNamespaced : Bool)
    (hdec : Unmarshal b = .ok obj)
    (hres : getDynamicClientOnKind obj.GroupVersionKind.Version obj.GroupVersionKind.Kind
      config = (calls, .ok (client, isNamespaced)))
    (t : Store) :
    Store.lookup
      (createOrUpdateResource (storeInformer clientset config Unmarshal) b ns t).2
      (Store.key (sendingClient client isNamespaced ns) (sentObject obj ns)) =
        some (sentObject obj ns) := by
  obtain ⟨habsent, hpresent⟩ := createOrUpdateResource_store clientset config Unmarshal b ns
    obj calls client isNamespaced hdec hres t
  cases h : Store.lookup t
      (Store.key (sendingClient client isNamespaced ns) (sentObject obj ns)) with
  | none =>
    rw [habsent h]
    exact Store.lookup_append_self t _ _ h
  | some o0 =>
    rw [hpresent o0 h]
    exact Store.lookup_overwrite t _ _ o0 h

/-- A second application over the map cluster changes nothing. -/
theorem application_twice
    (clientset : String → Terraform → Except String Result) (config : Config)
    (Unmarshal : List Nat → Except String Unstructured) (b : List Nat) (ns : String)
    (obj : Unstructured) (calls : List ClusterCall) (client : dynamic.ResourceClient)
    (isNamespaced : Bool)
    (hdec : Unmarshal b = .ok obj)
    (hres : getDynamicClientOnKind obj.GroupVersionKind.Version obj.GroupVersionKind.Kind
      config = (calls, .ok (client, isNamespaced)))
    (t : Store) :
    (createOrUpdateResource (storeInformer clientset config Unmarshal) b ns
      (createOrUpdateResource (storeInformer clientset config Unmarshal) b ns t).2).2 =
      (createOrUpdateResource (storeInformer clientset config Unmarshal) b ns t).2 := by
  have hafter := lookup_after_application clientset config Unmarshal b ns obj calls client
    isNamespaced hdec hres t
  rw [((createOrUpdateResource_store clientset config Unmarshal b ns obj calls client
    isNamespaced hdec hres _).2 _ hafter)]
  obtain ⟨habsent, hpresent⟩ := createOrUpdateResource_store clientset config Unmarshal b ns
    obj calls client isNamespaced hdec hres t
  cases h : Store.lookup t
      (Store.key (sendingClient client isNamespaced ns) (sentObject obj ns)) with
  | none =>
    rw [habsent h]
    exact Store.overwrite_append_self t _ _ h
  | some o0 =>
    rw [hpresent o0 h]
    exact Store.overwrite_overwrite t _ _

/-- Any positive number of applications over the map cluster gives the state
of one application. -/
theorem applyTimes_succ
    (clientset : String → Terraform → Except String Result) (config : Config)
    (Unmarshal : List Nat → Except String Unstructured) (b : List Nat) (ns : String)
    (obj : Unstructured) (calls : List ClusterCall) (client : dynamic.ResourceClient)
    (isNamespaced : Bool)
    (hdec : Unmarshal b = .ok obj)
    (hres : getDynamicClientOnKind obj.GroupVersionKind.Version obj.GroupVersionKind.Kind
      config = (calls, .ok (client, isNamespaced)))
    (n : Nat) (t : Store) :
    applyTimes (storeInformer clientset config Unmarshal) b ns (n + 1) t =
      (createOrUpdateResource (storeInformer clientset config Unmarshal) b ns t).2 := by
  induction n generalizing t with
  | zero => rfl
  | succ m ih =>
    show applyTimes (storeInformer clientset config Unmarshal) b ns (m + 1)
      (createOrUpdateResource (storeInformer clientset config Unmarshal) b ns t).2 = _
    rw [ih]
    exact application_twice clientset config Unmarshal b ns obj calls client isNamespaced
      hdec hres t

/-- Claim C6. Over the map cluster, for bytes that decode and a kind for which
a client is obtained, starting from a cluster that does not hold the object's
key: the first application performs one successful create; every later
application performs a create that fails with already-exists followed by one
successful update; the state after n + 1 applications is the state after one
application and holds exactly one object under the key, the object sent. The
last part states, for every starting cluster, that n + 1 applications give the
state of one application with the object sent stored under the key. -/
theorem createOrUpdateResource_idempotent
    (clientset : String → Terraform → Except String Result) (config : Config)
    (Unmarshal : List Nat → Except String Unstructured) (b : List Nat) (ns : String)
    (obj : Unstructured) (calls : List ClusterCall) (client : dynamic.ResourceClient)
    (isNamespaced : Bool) (s : Store) (n : Nat)
    (hdec : Unmarshal b = .ok obj)
    (hres : getDynamicClientOnKind obj.GroupVersionKind.Version obj.GroupVersionKind.Kind
      config = (calls, .ok (client, isNamespaced)))
    (hfresh : Store.lookup s
      (Store.key (sendingClient client isNamespaced ns) (sentObject obj ns)) = none) :
    (createOrUpdateResource (storeInformer clientset config Unmarshal) b ns s).1 =
      calls ++ [.Create (sendingClient client isNamespaced ns) (sentObject obj ns) none] ∧
    (∀ m, 1 ≤ m →
      (createOrUpdateResource (storeInformer clientset config Unmarshal) b ns
        (applyTimes (storeInformer clientset config Unmarshal) b ns m s)).1 =
        calls ++ [.Create (sendingClient client isNamespaced ns) (sentObject obj ns)
            (some .AlreadyExists),
          .Update (sendingClient client isNamespaced ns) (sentObject obj ns) none]) ∧
    applyTimes (storeInformer clientset config Unmarshal) b ns (n + 1) s =
      applyTimes (storeInformer clientset config Unmarshal) b ns 1 s ∧
    Store.lookup (applyTimes (storeInformer clientset config Unmarshal) b ns (n + 1) s)
      (Store.key (sendingClient client isNamespaced ns) (sentObject obj ns)) =
        some (sentObject obj ns) ∧
    Store.count (applyTimes (storeInformer clientset config Unmarshal) b ns (n + 1) s)
      (Store.key (sendingClient client isNamespaced ns) (sentObject obj ns)) = 1 ∧
    (∀ t : Store,
      applyTimes (storeInformer clientset config Unmarshal) b ns (n + 1) t =
        applyTimes (storeInformer clientset config Unmarshal) b ns 1 t ∧
      Store.lookup (applyTimes (storeInformer clientset config Unmarshal) b ns (n + 1) t)
        (Store.key (sendingClient client isNamespaced ns) (sentObject obj ns)) =
          some (sentObject obj ns) ∧
      (Store.count t
          (Store.key (sendingClient client isNamespaced ns) (sentObject obj ns)) ≤ 1 →
        Store.count (applyTimes (storeInformer clientset config Unmarshal) b ns (n + 1) t)
          (Store.key (sendingClient client isNamespaced ns) (sentObject obj ns)) = 1)) := by
  have hsucc := fun (k : Nat) (t : Store) =>
    applyTimes_succ clientset config Unmarshal b ns obj calls client isNamespaced hdec hres k t
  have hstore := fun (t : Store) =>
    createOrUpdateResource_store clientset config Unmarshal b ns obj calls client
      isNamespaced hdec hres t
  have hlook := fun (t : Store) =>
    lookup_after_application clientset config Unmarshal b ns obj calls client isNamespaced
      hdec hres t
  have hcount : ∀ t : Store,
      Store.count t (Store.key (sendingClient client isNamespaced ns) (sentObject obj ns)) ≤ 1 →
      Store.count (createOrUpdateResource (storeInformer clientset config Unmarshal) b ns t).2
        (Store.key (sendingClient client isNamespaced ns) (sentObject obj ns)) = 1 := by
    intro t ht
    cases h : Store.lookup t
        (Store.key (sendingClient client isNamespaced ns) (sentObject obj ns)) with
    | none =>
      rw [(hstore t).1 h, Store.count_append_self, Store.count_of_lookup_none t _ h]
    | some o0 =>
      rw [(hstore t).2 o0 h, Store.count_overwrite]
      have := Store.count_pos_of_lookup_some t _ o0 h
      omega
  refine ⟨?_, ?_, ?_, ?_, ?_, ?_⟩
  · rw [(hstore s).1 hfresh]
  · intro m hm
    obtain ⟨k, rfl⟩ : ∃ k, m = k + 1 := ⟨m - 1, by omega⟩
    rw [hsucc k s, (hstore _).2 _ (hlook s)]
  · rw [hsucc n s, hsucc 0 s]
  · rw [hsucc n s]
    exact hlook s
  · rw [hsucc n s]
    exact hcount s (by rw [Store.count_of_lookup_none s _ hfresh]; omega)
  · intro t
    refine ⟨by rw [hsucc n t, hsucc 0 t], by rw [hsucc n t]; exact hlook t, fun ht => ?_⟩
    rw [hsucc n t]
    exact hcount t ht

/-- Witness of claim C6: the labelled `ConfigMap` applied three times to
"prod", in a cluster that holds one other object. -/
theorem createOrUpdateResource_idempotent_witness :
    (createOrUpdateResource (storeInformer (fun _ _ => .error "unused") sampleConfig
        sampleUnmarshal) (bytes configMapJSON) "prod"
        [(({ Group := "", Version := "v1", Resource := "configmaps" }, "prod", "other"),
          sampleObject "v1" "ConfigMap" "other")]).1 =
      [.ServerResourcesForGroupVersion "v1"] ++
        [.Create { resource := { Group := "", Version := "v1", Resource := "configmaps" },
                   nspace := "prod" } (sentObject configMapObject "prod") none] ∧
    (sentObject configMapObject "prod").name = "settings" ∧
    applyTimes (storeInformer (fun _ _ => .error "unused") sampleConfig sampleUnmarshal)
        (bytes configMapJSON) "prod" 3
        [(({ Group := "", Version := "v1", Resource := "configmaps" }, "prod", "other"),
          sampleObject "v1" "ConfigMap" "other")] =
      applyTimes (storeInformer (fun _ _ => .error "unused") sampleConfig sampleUnmarshal)
        (bytes configMapJSON) "prod" 1
        [(({ Group := "", Version := "v1", Resource := "configmaps" }, "prod", "other"),
          sampleObject "v1" "ConfigMap" "other")] ∧
    Store.count
      (applyTimes (storeInformer (fun _ _ => .error "unused") sampleConfig sampleUnmarshal)
        (bytes configMapJSON) "prod" 3
        [(({ Group := "", Version := "v1", Resource := "configmaps" }, "prod", "other"),
          sampleObject "v1" "ConfigMap" "other")])
      ({ Group := "", Version := "v1", Resource := "configmaps" }, "prod", "settings") = 1 :=
  have h := createOrUpdateResource_idempotent (fun _ _ => .error "unused") sampleConfig
    sampleUnmarshal (bytes configMapJSON) "prod" configMapObject
    [.ServerResourcesForGroupVersion "v1"]
    (dynamic.Resource { Group := "", Version := "v1", Resource := "configmaps" }) true
    [(({ Group := "", Version := "v1", Resource := "configmaps" }, "prod", "other"),
      sampleObject "v1" "ConfigMap" "other")] 2
    (by decide) (by decide) (by decide)
  ⟨h.1, by decide, h.2.2.1, h.2.2.2.2.1⟩

end tfhandler
